import Mathlib

set_option maxRecDepth 4000

/-!
Verification of the FAST_APPS data-access core against its specification.

The development shallowly embeds the Python code of
`backend/app/core/base` (QueryBuilder, comparator, nested CRUD handler)
into Lean: Python values become the inductive `PyVal`, SQLAlchemy
predicate objects become the inductive `QPred`, exceptions become
`Except`, and each Python function is translated statement by statement
into a Lean definition carrying the same name where possible.
-/

namespace FastApps

/-! ## Python value model -/

/-- A Python runtime value as used by the query-builder / CRUD payloads. -/
inductive PyVal where
  | none
  | str (s : String)
  | int (n : Int)
  | bool (b : Bool)
  | list (xs : List PyVal)
  | tuple (xs : List PyVal)
  | dict (xs : List (String × PyVal))

mutual

/-- Structural equality of Python values (`==`). -/
def PyVal.beq : PyVal → PyVal → Bool
  | .none, .none => true
  | .str a, .str b => a == b
  | .int a, .int b => a == b
  | .bool a, .bool b => a == b
  | .list a, .list b => PyVal.beqList a b
  | .tuple a, .tuple b => PyVal.beqList a b
  | .dict a, .dict b => PyVal.beqDict a b
  | _, _ => false

def PyVal.beqList : List PyVal → List PyVal → Bool
  | [], [] => true
  | x :: xs, y :: ys => PyVal.beq x y && PyVal.beqList xs ys
  | _, _ => false

def PyVal.beqDict : List (String × PyVal) → List (String × PyVal) → Bool
  | [], [] => true
  | (k1, v1) :: xs, (k2, v2) :: ys =>
      k1 == k2 && PyVal.beq v1 v2 && PyVal.beqDict xs ys
  | _, _ => false

end

theorem PyVal.beqList_sound_of (n : Nat)
    (ih : ∀ a b : PyVal, sizeOf a ≤ n → PyVal.beq a b = true → a = b) :
    ∀ xs ys : List PyVal, sizeOf xs ≤ n → PyVal.beqList xs ys = true → xs = ys := by
  intro xs
  induction xs with
  | nil => intro ys _ h; cases ys with
    | nil => rfl
    | cons y ys => simp [PyVal.beqList] at h
  | cons x xs ihl =>
    intro ys hs h
    cases ys with
    | nil => simp [PyVal.beqList] at h
    | cons y ys =>
      simp only [PyVal.beqList, Bool.and_eq_true] at h
      have hx : sizeOf x ≤ n := by simp at hs; omega
      have hxs : sizeOf xs ≤ n := by simp at hs; omega
      rw [ih x y hx h.1, ihl ys hxs h.2]

theorem PyVal.beqDict_sound_of (n : Nat)
    (ih : ∀ a b : PyVal, sizeOf a ≤ n → PyVal.beq a b = true → a = b) :
    ∀ xs ys : List (String × PyVal), sizeOf xs ≤ n →
      PyVal.beqDict xs ys = true → xs = ys := by
  intro xs
  induction xs with
  | nil => intro ys _ h; cases ys with
    | nil => rfl
    | cons y ys => simp [PyVal.beqDict] at h
  | cons x xs ihl =>
    intro ys hs h
    obtain ⟨k1, v1⟩ := x
    cases ys with
    | nil => simp [PyVal.beqDict] at h
    | cons y ys =>
      obtain ⟨k2, v2⟩ := y
      simp only [PyVal.beqDict, Bool.and_eq_true] at h
      have hx : sizeOf v1 ≤ n := by simp at hs; omega
      have hxs : sizeOf xs ≤ n := by simp at hs; omega
      have hk : k1 = k2 := by
        have := h.1.1; exact eq_of_beq this
      rw [hk, ih v1 v2 hx h.1.2, ihl ys hxs h.2]

theorem PyVal.beq_sound_aux :
    ∀ (n : Nat) (a b : PyVal), sizeOf a ≤ n → PyVal.beq a b = true → a = b := by
  intro n
  induction n with
  | zero =>
    intro a b hs
    exfalso
    cases a <;> simp at hs
  | succ n ih =>
    intro a b hs h
    cases a <;> cases b <;> simp only [PyVal.beq] at h <;>
      first
      | rfl
      | exact Bool.noConfusion h
      | (simp only [beq_iff_eq] at h; rw [h])
      | exact congrArg _ (PyVal.beqList_sound_of n ih _ _ (by simp at hs; omega) h)
      | exact congrArg _ (PyVal.beqDict_sound_of n ih _ _ (by simp at hs; omega) h)

theorem PyVal.beq_sound {a b : PyVal} (h : PyVal.beq a b = true) : a = b :=
  PyVal.beq_sound_aux (sizeOf a) a b (Nat.le_refl _) h

theorem PyVal.beqList_refl_of (n : Nat)
    (ih : ∀ a : PyVal, sizeOf a ≤ n → PyVal.beq a a = true) :
    ∀ xs : List PyVal, sizeOf xs ≤ n → PyVal.beqList xs xs = true := by
  intro xs
  induction xs with
  | nil => intro _; rfl
  | cons x xs ihl =>
    intro hs
    simp only [PyVal.beqList, Bool.and_eq_true]
    exact ⟨ih x (by simp at hs; omega), ihl (by simp at hs; omega)⟩

theorem PyVal.beqDict_refl_of (n : Nat)
    (ih : ∀ a : PyVal, sizeOf a ≤ n → PyVal.beq a a = true) :
    ∀ xs : List (String × PyVal), sizeOf xs ≤ n → PyVal.beqDict xs xs = true := by
  intro xs
  induction xs with
  | nil => intro _; rfl
  | cons x xs ihl =>
    intro hs
    obtain ⟨k, v⟩ := x
    simp only [PyVal.beqDict, Bool.and_eq_true]
    refine ⟨⟨beq_self_eq_true k, ih v (by simp at hs; omega)⟩, ihl (by simp at hs; omega)⟩

theorem PyVal.beq_refl_aux :
    ∀ (n : Nat) (a : PyVal), sizeOf a ≤ n → PyVal.beq a a = true := by
  intro n
  induction n with
  | zero =>
    intro a hs
    exfalso
    cases a <;> simp at hs
  | succ n ih =>
    intro a hs
    cases a <;>
      first
      | rfl
      | (simp only [PyVal.beq]; exact beq_self_eq_true _)
      | (simp only [PyVal.beq]
         first
         | exact PyVal.beqList_refl_of n ih _ (by simp at hs; omega)
         | exact PyVal.beqDict_refl_of n ih _ (by simp at hs; omega))

theorem PyVal.beq_refl (a : PyVal) : PyVal.beq a a = true :=
  PyVal.beq_refl_aux (sizeOf a) a (Nat.le_refl _)

instance : BEq PyVal := ⟨PyVal.beq⟩

instance : LawfulBEq PyVal where
  eq_of_beq h := PyVal.beq_sound h
  rfl := PyVal.beq_refl _

instance : DecidableEq PyVal := fun a b =>
  decidable_of_iff (PyVal.beq a b = true)
    ⟨fun h => PyVal.beq_sound h, fun h => h ▸ PyVal.beq_refl a⟩

mutual

/-- Python `repr` of a value (string escaping approximated by plain
quotes; only the whitespace-or-not shape of the result matters in this
development). -/
def pyRepr : PyVal → String
  | .none => "None"
  | .str s => "'" ++ s ++ "'"
  | .int n => toString n
  | .bool b => if b then "True" else "False"
  | .list xs => "[" ++ String.intercalate ", " (pyReprElems xs) ++ "]"
  | .tuple [x] => "(" ++ pyRepr x ++ ",)"
  | .tuple xs => "(" ++ String.intercalate ", " (pyReprElems xs) ++ ")"
  | .dict xs => "\x7b" ++ String.intercalate ", " (pyReprPairs xs) ++ "\x7d"

def pyReprElems : List PyVal → List String
  | [] => []
  | x :: xs => pyRepr x :: pyReprElems xs

def pyReprPairs : List (String × PyVal) → List String
  | [] => []
  | (k, v) :: xs => ("'" ++ k ++ "': " ++ pyRepr v) :: pyReprPairs xs

end

/-- Python `str` of a value (spelling out `str`'s output on the scalar
types; containers delegate to `repr` of their elements). -/
def pyStr : PyVal → String
  | .str s => s
  | .none => "None"
  | .int n => toString n
  | .bool b => if b then "True" else "False"
  | v => pyRepr v

/-- Python whitespace (the ASCII characters stripped by `str.strip`). -/
def pySpaceChar (c : Char) : Bool :=
  c == ' ' || c == '\t' || c == '\n' || c == '\r' || c == '\x0b' || c == '\x0c'

/-- Python `s.strip()`. -/
def pyStrip (s : String) : String :=
  String.mk (((s.data.dropWhile pySpaceChar).reverse.dropWhile pySpaceChar).reverse)

/-- Helper for `pySplit` (splitting a character list on a separator). -/
def splitOnCharAux (c : Char) : List Char → List Char → List String
  | [], acc => [String.mk acc.reverse]
  | ch :: rest, acc =>
    if ch = c then String.mk acc.reverse :: splitOnCharAux c rest []
    else splitOnCharAux c rest (ch :: acc)

/-- Python `s.split(c)` for a one-character separator. -/
def pySplit (c : Char) (s : String) : List String :=
  splitOnCharAux c s.data []

/-- Python `'.' in s`. -/
def pyContainsDot (s : String) : Bool :=
  s.data.contains '.'

instance : Repr PyVal := ⟨fun v _ => Std.Format.text (pyRepr v)⟩

/-- `isinstance(v, list)` -/
def PyVal.isList : PyVal → Bool
  | .list _ => true
  | _ => false

/-- `isinstance(v, str)` -/
def PyVal.isStr : PyVal → Bool
  | .str _ => true
  | _ => false

/-! ## Predicate and column model

SQLAlchemy boolean clause objects are represented syntactically. -/

/-- A concrete column reference: an attribute of the base model or of a
join alias created by `PathResolver` (`aliased(target, name=f"alias_k")`). -/
inductive ColRef where
  | model (model attr : String)
  | aliased (idx : Nat) (attr : String)
deriving DecidableEq, Repr

/-- Right-hand sides of comparisons: a raw Python value or a parsed
`datetime` (abstracted to `Int`). -/
inductive Scalar where
  | py (v : PyVal)
  | dt (d : Int)
deriving DecidableEq, Repr

/-- SQLAlchemy boolean expressions produced by the filters. -/
inductive QPred where
  | tt
  | eqP (c : ColRef) (v : Scalar)
  | neP (c : ColRef) (v : Scalar)
  | ltP (c : ColRef) (v : Scalar)
  | leP (c : ColRef) (v : Scalar)
  | gtP (c : ColRef) (v : Scalar)
  | geP (c : ColRef) (v : Scalar)
  | eqStrP (c : ColRef) (s : String)
  | neStrP (c : ColRef) (s : String)
  | ilikeP (c : ColRef) (pat : String)
  | likeP (c : ColRef) (pat : String)
  | inP (c : ColRef) (vs : List PyVal)
  | isNullP (c : ColRef)
  | isNotNullP (c : ColRef)
  | eqColsP (a b : String)
  | notP (p : QPred)
  | andP (p q : QPred)
  | orP (p q : QPred)
  | anyP (c : ColRef) (body : QPred)
  | anyEmptyP (c : ColRef)
  | hasRelP (c : ColRef) (body : QPred)
deriving DecidableEq, Repr

/-- SQLAlchemy `and_(*conds)` (empty gives a trivially-true clause, a
single element is returned as-is). -/
def andAll : List QPred → QPred
  | [] => .tt
  | [p] => p
  | p :: ps => .andP p (andAll ps)

/-- SQLAlchemy `or_(*conds)`. -/
def orAll : List QPred → QPred
  | [] => .tt
  | [p] => p
  | p :: ps => .orP p (orAll ps)

/-! ## Operator vocabularies (`QueryBuilder/types.py`) -/

def NUMBER_OPERATORS : List String :=
  ["equals", "notEquals", "lessThan", "lessThanOrEqualTo",
   "greaterThan", "greaterThanOrEqualTo", "between", "betweenInclusive"]

def DATE_OPERATORS : List String :=
  ["equals", "notEquals", "lessThan", "lessThanOrEqualTo",
   "greaterThan", "greaterThanOrEqualTo", "between", "betweenInclusive"]

def TEXT_OPERATORS : List String :=
  ["equals", "notEquals", "lessThan", "lessThanOrEqualTo",
   "greaterThan", "greaterThanOrEqualTo",
   "contains", "notContains", "startsWith", "endsWith", "fuzzy"]

def LIST_OPERATORS : List String :=
  ["in", "notIn", "between", "arrIncludes", "arrIncludesSome", "arrIncludesAll"]

def RELATION_OPERATORS : List String :=
  ["hasAny", "hasAll", "hasChild", "hasNotChild"]

def BOOLEAN_OPERATORS : List String := ["equals"]

/-! ## `filters/number_filter.py` -/

/-- `val is None or str(val).strip() == ""` -/
def isEmptyBound (v : PyVal) : Bool :=
  match v with
  | PyVal.none => true
  | v => pyStrip (pyStr v) == ""

/-- The scalar comparison chain at the bottom of `NumberFilter.apply`. -/
def numScalarPred (column : ColRef) (operator : String) (value : PyVal) : QPred :=
  if operator = "equals" then .eqP column (.py value)
  else if operator = "notEquals" then .neP column (.py value)
  else if operator = "lessThan" then .ltP column (.py value)
  else if operator = "lessThanOrEqualTo" then .leP column (.py value)
  else if operator = "greaterThan" then .gtP column (.py value)
  else if operator = "greaterThanOrEqualTo" then .geP column (.py value)
  else .eqP column (.py value)

/-- `NumberFilter.apply` -/
def NumberFilter_apply (column : ColRef) (operator : String) (value : PyVal) : QPred :=
  let op := if NUMBER_OPERATORS.contains operator then operator else "equals"
  match value with
  | .list [val1, val2] =>
    if op = "between" ∨ op = "betweenInclusive" then
      if isEmptyBound val1 && isEmptyBound val2 then .tt
      else if isEmptyBound val2 && !(isEmptyBound val1) then .geP column (.py val1)
      else if isEmptyBound val1 && !(isEmptyBound val2) then .leP column (.py val2)
      else if op = "between" then .andP (.gtP column (.py val1)) (.ltP column (.py val2))
      else .andP (.geP column (.py val1)) (.leP column (.py val2))
    else numScalarPred column op val1
  | .list vs => numScalarPred column op (vs.headD .none)
  | v => numScalarPred column op v

/-! ## `filters/date_filter.py`

`datetime.fromisoformat` is abstracted as a parameter
`parse : String → Option Int`; `Option.none` models the `ValueError` it
raises on strings that are not ISO dates (in particular on `""` and on
whitespace-only strings). -/

/-- Evaluate `datetime.fromisoformat(val.replace('Z', '+00:00'))` guarded by
`if val is not None`; `.error` models the `ValueError`/`AttributeError`
that the surrounding `try` of `DateFilter.apply` catches. -/
def parseBound (parse : String → Option Int) : PyVal → Except Unit (Option Int)
  | PyVal.none => .ok Option.none
  | PyVal.str s =>
    match parse (s.replace "Z" "+00:00") with
    | some d => .ok (some d)
    | Option.none => .error ()
  | _ => .error ()

/-- The scalar comparison chain of `DateFilter.apply` on a parsed date. -/
def dateScalarPred (column : ColRef) (operator : String) (d : Int) : QPred :=
  if operator = "equals" then .eqP column (.dt d)
  else if operator = "notEquals" then .neP column (.dt d)
  else if operator = "lessThan" then .ltP column (.dt d)
  else if operator = "lessThanOrEqualTo" then .leP column (.dt d)
  else if operator = "greaterThan" then .gtP column (.dt d)
  else if operator = "greaterThanOrEqualTo" then .geP column (.dt d)
  else .eqP column (.dt d)

/-- `DateFilter.apply` -/
def DateFilter_apply (parse : String → Option Int) (column : ColRef)
    (operator : String) (value : PyVal) : QPred :=
  let op := if DATE_OPERATORS.contains operator then operator else "equals"
  if ¬(op = "between" ∨ op = "betweenInclusive") then
    match value with
    | PyVal.str s =>
      match parse (s.replace "Z" "+00:00") with
      | some d => dateScalarPred column op d
      | Option.none => .eqP column (.py value)
    | v => .eqP column (.py v)
  else
    match value with
    | PyVal.list [val1, val2] =>
      (match parseBound parse val1 with
      | .error _ => .eqP column (.py (PyVal.list [val1, val2]))
      | .ok p1 =>
        match parseBound parse val2 with
        | .error _ => .eqP column (.py (PyVal.list [val1, val2]))
        | .ok p2 =>
          match p1, p2 with
          | Option.none, Option.none => .tt
          | some d1, Option.none => .geP column (.dt d1)
          | Option.none, some d2 => .leP column (.dt d2)
          | some d1, some d2 =>
            if op = "between" then .andP (.gtP column (.dt d1)) (.ltP column (.dt d2))
            else .andP (.geP column (.dt d1)) (.leP column (.dt d2)))
    | v => .eqP column (.py v)

/-! ## Python exceptions -/

/-- Exception classes raised by the embedded code. -/
inductive PyErr where
  | typeError
  | attributeError
  | keyError
  | indexError
  | valueError (msg : String)
  | modelComparisonError
  | notImplementedError
deriving DecidableEq, Repr

/-! ## `filters/list_filter.py` -/

instance : Inhabited PyVal := ⟨PyVal.none⟩

/-- Payload of a `list` value (only used behind `isinstance(v, list)`). -/
def PyVal.asList : PyVal → List PyVal
  | .list xs => xs
  | _ => []

/-- Python `v == ''` (only a `str` equal to `''` compares equal to `''`). -/
def pyEqEmptyStr : PyVal → Bool
  | .str "" => true
  | _ => false

/-- Python `'' in value`: substring test on `str` (always true for the
empty string), element test on `list`/`tuple`, key test on `dict`,
`TypeError` on non-iterables. -/
def pyContainsEmptyStr : PyVal → Except PyErr Bool
  | .str _ => .ok true
  | .list xs => .ok (xs.any pyEqEmptyStr)
  | .tuple xs => .ok (xs.any pyEqEmptyStr)
  | .dict xs => .ok (xs.any (fun kv => kv.1 == ""))
  | _ => .error .typeError

/-- Python `value.pop('')`: `TypeError` on a `list` (index must be an
integer), `KeyError`-free value removal on a `dict`, `AttributeError`
elsewhere (`str`/`tuple`/scalars have no `pop`). -/
def pyPopEmptyStr : PyVal → Except PyErr PyVal
  | .list _ => .error .typeError
  | .dict xs =>
    (match xs.lookup "" with
    | some v => .ok v
    | Option.none => .error .keyError)
  | _ => .error .attributeError

/-- `ListFilter.apply` -/
def ListFilter_apply (column : ColRef) (operator0 : String) (value0 : PyVal) :
    Except PyErr QPred := do
  let value := match value0 with
    | .list xs => PyVal.list (xs.filter (fun v => !(pyEqEmptyStr v)))
    | v => v
  let mem ← pyContainsEmptyStr value
  let value ← if mem then pyPopEmptyStr value else pure value
  let operator := if LIST_OPERATORS.contains operator0 then operator0 else "in"
  if operator = "in" ∧ value.isList = true then
    pure (.inP column value.asList)
  else if operator = "notIn" ∧ value.isList = true then
    pure (.notP (.inP column value.asList))
  else if operator = "between" ∧ value.isList = true ∧ value.asList.length = 2 then
    pure (.andP (.geP column (.py (value.asList.getD 0 .none)))
                (.leP column (.py (value.asList.getD 1 .none))))
  else if operator = "arrIncludesAll" ∧ value.isList = true then
    pure (.inP column value.asList)
  else if operator = "arrIncludesSome" ∧ value.isList = true then
    pure (.inP column value.asList)
  else if operator = "arrIncludes" ∧ value.isList = true then
    pure (.inP column value.asList)
  else
    pure (.inP column (if value.isList then value.asList else [value]))

theorem filter_no_empty_contains (xs : List PyVal) :
    (xs.filter (fun v => !(pyEqEmptyStr v))).any pyEqEmptyStr = false := by
  rw [Bool.eq_false_iff]
  intro h
  rw [List.any_eq_true] at h
  obtain ⟨x, hx, hpos⟩ := h
  rw [List.mem_filter] at hx
  rw [hpos] at hx
  simp at hx

/-! ## C5 and C10 theorems -/

/-- C5 (corrected, counterexample): the claim extends the
null/empty/whitespace bound handling to the *date* filter, but
`DateFilter.apply` pipes every non-`None` bound through
`datetime.fromisoformat`, which raises `ValueError` on the empty string;
the `except` clause then returns `column == value`, not a trivially-true
predicate. -/
theorem dateFilter_between_empty_bounds_cex :
    isEmptyBound (PyVal.str "") = true ∧
    DateFilter_apply (fun _ => Option.none) (ColRef.model "Item" "created_at")
        "between" (PyVal.list [PyVal.str "", PyVal.str ""]) =
      QPred.eqP (ColRef.model "Item" "created_at")
        (Scalar.py (PyVal.list [PyVal.str "", PyVal.str ""])) ∧
    DateFilter_apply (fun _ => Option.none) (ColRef.model "Item" "created_at")
        "between" (PyVal.list [PyVal.str "", PyVal.str ""]) ≠ QPred.tt := by
  refine ⟨by decide, rfl, by decide⟩

/-- C5 (amended): for the number filter, 2-element `between` /
`betweenInclusive` bounds behave exactly as claimed (both bounds
null/empty/whitespace → trivially true; one-sided bounds degrade to
`>=` / `<=`; `[null, 100]` gives `column <= 100`; two present bounds give
strict or inclusive conjunctions).  For the date filter the same holds
only for `None` bounds combined with parseable ISO strings; empty-string
bounds instead fall into the `ValueError` fallback. -/
theorem between_filter_bounds_spec (col : ColRef) (op : String)
    (hop : op = "between" ∨ op = "betweenInclusive") :
    (∀ a b : PyVal, isEmptyBound a = true → isEmptyBound b = true →
      NumberFilter_apply col op (PyVal.list [a, b]) = QPred.tt) ∧
    (∀ a b : PyVal, isEmptyBound a = false → isEmptyBound b = true →
      NumberFilter_apply col op (PyVal.list [a, b]) = QPred.geP col (.py a)) ∧
    (∀ a b : PyVal, isEmptyBound a = true → isEmptyBound b = false →
      NumberFilter_apply col op (PyVal.list [a, b]) = QPred.leP col (.py b)) ∧
    (∀ a b : PyVal, isEmptyBound a = false → isEmptyBound b = false →
      NumberFilter_apply col op (PyVal.list [a, b]) =
        (if op = "between" then QPred.andP (.gtP col (.py a)) (.ltP col (.py b))
         else QPred.andP (.geP col (.py a)) (.leP col (.py b)))) ∧
    (NumberFilter_apply col "between" (PyVal.list [PyVal.none, PyVal.int 100]) =
      QPred.leP col (.py (PyVal.int 100))) ∧
    (∀ parse : String → Option Int,
      DateFilter_apply parse col op (PyVal.list [PyVal.none, PyVal.none]) = QPred.tt) ∧
    (∀ (parse : String → Option Int) (s : String) (d : Int),
      parse (s.replace "Z" "+00:00") = some d →
      DateFilter_apply parse col op (PyVal.list [PyVal.str s, PyVal.none]) =
          QPred.geP col (.dt d) ∧
      DateFilter_apply parse col op (PyVal.list [PyVal.none, PyVal.str s]) =
          QPred.leP col (.dt d)) ∧
    (∀ (parse : String → Option Int) (s1 s2 : String) (d1 d2 : Int),
      parse (s1.replace "Z" "+00:00") = some d1 →
      parse (s2.replace "Z" "+00:00") = some d2 →
      DateFilter_apply parse col op (PyVal.list [PyVal.str s1, PyVal.str s2]) =
        (if op = "between" then QPred.andP (.gtP col (.dt d1)) (.ltP col (.dt d2))
         else QPred.andP (.geP col (.dt d1)) (.leP col (.dt d2)))) := by
  obtain rfl | rfl := hop <;>
  · refine ⟨?_, ?_, ?_, ?_, rfl, ?_, ?_, ?_⟩
    · intro a b ha hb
      simp [NumberFilter_apply, NUMBER_OPERATORS, ha, hb]
    · intro a b ha hb
      simp [NumberFilter_apply, NUMBER_OPERATORS, ha, hb]
    · intro a b ha hb
      simp [NumberFilter_apply, NUMBER_OPERATORS, ha, hb]
    · intro a b ha hb
      simp [NumberFilter_apply, NUMBER_OPERATORS, ha, hb]
    · intro parse
      simp [DateFilter_apply, DATE_OPERATORS, parseBound]
    · intro parse s d hp
      constructor <;> simp [DateFilter_apply, DATE_OPERATORS, parseBound, hp]
    · intro parse s1 s2 d1 d2 hp1 hp2
      simp [DateFilter_apply, DATE_OPERATORS, parseBound, hp1, hp2]

/-- Witness for `between_filter_bounds_spec`. -/
theorem between_filter_bounds_spec_witness :
    ("between" = "between" ∨ "between" = "betweenInclusive") ∧
    isEmptyBound (PyVal.str " ") = true ∧
    NumberFilter_apply (ColRef.model "Item" "amount") "between"
        (PyVal.list [PyVal.str " ", PyVal.str " "]) = QPred.tt ∧
    NumberFilter_apply (ColRef.model "Item" "amount") "between"
        (PyVal.list [PyVal.none, PyVal.int 100]) =
      QPred.leP (ColRef.model "Item" "amount") (.py (PyVal.int 100)) := by
  have h := between_filter_bounds_spec (ColRef.model "Item" "amount") "between"
    (Or.inl rfl)
  exact ⟨Or.inl rfl, by decide,
    h.1 (PyVal.str " ") (PyVal.str " ") (by decide) (by decide), h.2.2.2.2.1⟩

/-- C10 (corrected, counterexample): the claim quantifies over *every*
non-list value, but a non-list container that does not contain the empty
string — here the empty tuple — passes the cleanup step untouched and
reaches the final fallback `column.in_([value])`, producing a membership
predicate without raising. -/
theorem listFilter_nonlist_value_cex :
    (PyVal.tuple []).isList = false ∧
    ListFilter_apply (ColRef.model "Item" "status") "in" (PyVal.tuple []) =
      Except.ok (QPred.inP (ColRef.model "Item" "status") [PyVal.tuple []]) := by
  exact ⟨rfl, rfl⟩

/-- C10 (amended): `ListFilter.apply` raises before producing a predicate
for every *string* value (`'' in value` succeeds, then `value.pop('')` is
an `AttributeError` on `str`) and for every non-iterable scalar
(`'' in value` is a `TypeError`); every *list* value yields a predicate.
Non-list containers, however, can still slip through to the fallback. -/
theorem listFilter_apply_value_guard (col : ColRef) (op : String) :
    (∀ s : String, ListFilter_apply col op (PyVal.str s) =
      Except.error PyErr.attributeError) ∧
    (ListFilter_apply col op PyVal.none = Except.error PyErr.typeError) ∧
    (∀ n : Int, ListFilter_apply col op (PyVal.int n) = Except.error PyErr.typeError) ∧
    (∀ b : Bool, ListFilter_apply col op (PyVal.bool b) =
      Except.error PyErr.typeError) ∧
    (∀ xs : List PyVal, (ListFilter_apply col op (PyVal.list xs)).isOk = true) := by
  refine ⟨fun s => rfl, rfl, fun n => rfl, fun b => rfl, fun xs => ?_⟩
  unfold ListFilter_apply
  simp only [pyContainsEmptyStr, filter_no_empty_contains, Bool.false_eq_true,
    if_false, bind, Except.bind, pure, Except.pure]
  split_ifs <;> rfl

/-! ## `comparator/compartor.py`

A Pydantic/SQLModel instance is modelled as a class name plus its
`model_dump` field mapping (field names are unique); `None` entries in
the compared lists are not modelled (the claims under study do not
involve them). -/

/-- A model instance as seen by `ModelComparator`. -/
structure PyModel where
  cls : String
  fields : List (String × PyVal)
deriving DecidableEq, Repr

/-- `getattr(item, field)`: `Option.none` models `AttributeError`. -/
def PyModel.getattr (r : PyModel) (f : String) : Option PyVal :=
  r.fields.lookup f

/-- `_validate_list_internal_consistency`: every item must have exactly
the same class as the first item, else `ModelComparisonError`. -/
def validate_list_internal_consistency (lst : List PyModel) :
    Except PyErr (Option String) :=
  match lst with
  | [] => .ok Option.none
  | r :: rest =>
    if rest.all (fun x => x.cls == r.cls) then .ok (some r.cls)
    else .error .modelComparisonError

/-- `_validate_all_types`: both lists internally consistent, and of the
same class when both are non-empty. -/
def validate_all_types (old new : List PyModel) : Except PyErr Unit := do
  let ot ← validate_list_internal_consistency old
  let nt ← validate_list_internal_consistency new
  match ot, nt with
  | some a, some b => if a == b then .ok () else .error .modelComparisonError
  | _, _ => .ok ()

/-- `_get_all_fields`: the `model_dump` keys of the first item. -/
def get_all_fields (lst : List PyModel) : List String :=
  match lst with
  | [] => []
  | r :: _ => r.fields.map Prod.fst

/-- The key-field set used by `_check_key_duplicates`: the given
`key_fields`, or, when empty, the list's fields minus `exclude_fields`. -/
def effectiveKeyFields (lst : List PyModel)
    (key_fields exclude_fields : List String) : List String :=
  if key_fields.isEmpty then
    (get_all_fields lst).filter (fun f => !(exclude_fields.contains f))
  else key_fields

/-- `tuple(getattr(item, field) for field in fields)`; `Option.none`
models the `AttributeError` on a missing key field. -/
def keyTupleOf (fields : List String) (r : PyModel) : Option (List PyVal) :=
  fields.mapM (fun f => r.fields.lookup f)

/-- The loop body of `_check_key_duplicates`: seen-key accumulation with
`ModelComparisonError` on a repeated key or a missing key field. -/
def checkDupAux (fields : List String) (seen : List (List PyVal)) :
    List PyModel → Except PyErr Unit
  | [] => .ok ()
  | r :: rest =>
    match keyTupleOf fields r with
    | Option.none => .error .modelComparisonError
    | some k =>
      if seen.contains k then .error .modelComparisonError
      else checkDupAux fields (k :: seen) rest

/-- `_check_key_duplicates`. -/
def check_key_duplicates (lst : List PyModel)
    (key_fields exclude_fields : List String) : Except PyErr Unit :=
  if lst.isEmpty then .ok ()
  else if (effectiveKeyFields lst key_fields exclude_fields).isEmpty then .ok ()
  else checkDupAux (effectiveKeyFields lst key_fields exclude_fields) [] lst

/-- `_filter_attributes`: drop excluded fields from a `model_dump`. -/
def filter_attributes (exclude_fields : List String)
    (attrs : List (String × PyVal)) : List (String × PyVal) :=
  attrs.filter (fun kv => !(exclude_fields.contains kv.1))

/-- Python `dict` equality on field mappings with unique keys. -/
def pyDictEq (a b : List (String × PyVal)) : Bool :=
  a.length == b.length && a.all (fun kv => b.lookup kv.1 == some kv.2)

/-- Insert into a Python `dict` modelled as an assoc list: overwrite in
place when the key exists, append otherwise. -/
def dictInsert (m : List (List PyVal × PyModel)) (k : List PyVal) (v : PyModel) :
    List (List PyVal × PyModel) :=
  if m.any (fun kv => kv.1 == k) then
    m.map (fun kv => if kv.1 == k then (kv.1, v) else kv)
  else m ++ [(k, v)]

/-- A `modified` entry of the comparison result. -/
structure ModifiedItem where
  key : List (String × PyVal)
  old_item : PyModel
  new_item : PyModel
  changed_fields : List (String × (Option PyVal × Option PyVal))
deriving DecidableEq, Repr

/-- `ComparisonResult`. -/
structure ComparisonResult where
  added : List PyModel
  removed : List PyModel
  modified : List ModifiedItem
  unchanged : List PyModel
deriving DecidableEq, Repr

/-- `_perform_comparison` (set-iteration orders determinized by dict
insertion order, which does not affect the claims under study). -/
def perform_comparison (old new : List PyModel)
    (key_fields exclude_fields : List String) : Except PyErr ComparisonResult := do
  let kf :=
    if key_fields.isEmpty then
      ((get_all_fields old ++ get_all_fields new).dedup).filter
        (fun f => !(exclude_fields.contains f))
    else key_fields
  let getKey : PyModel → Except PyErr (List PyVal) := fun r =>
    match keyTupleOf kf r with
    | some k => .ok k
    | Option.none => .error .modelComparisonError
  let oldPairs ← old.mapM (fun r => do pure ((← getKey r), r))
  let newPairs ← new.mapM (fun r => do pure ((← getKey r), r))
  let oldDict := oldPairs.foldl (fun m kv => dictInsert m kv.1 kv.2) []
  let newDict := newPairs.foldl (fun m kv => dictInsert m kv.1 kv.2) []
  let oldKeys := oldDict.map Prod.fst
  let newKeys := newDict.map Prod.fst
  let added := (newDict.filter (fun kv => !(oldKeys.contains kv.1))).map Prod.snd
  let removed := (oldDict.filter (fun kv => !(newKeys.contains kv.1))).map Prod.snd
  let common := oldDict.filter (fun kv => newKeys.contains kv.1)
  let classified := common.map (fun kv =>
    let oldItem := kv.2
    let newItem := ((newDict.lookup kv.1).getD oldItem)
    let oldData := filter_attributes exclude_fields oldItem.fields
    let newData := filter_attributes exclude_fields newItem.fields
    if pyDictEq oldData newData then
      Sum.inr oldItem
    else
      let allFields := (oldData.map Prod.fst ++ newData.map Prod.fst).dedup
      let changed := (allFields.filter
        (fun f => !(oldData.lookup f == newData.lookup f))).map
        (fun f => (f, (oldData.lookup f, newData.lookup f)))
      Sum.inl { key := kf.zip kv.1 |>.map (fun p => (p.1, p.2)),
                old_item := oldItem, new_item := newItem,
                changed_fields := changed })
  let modified := classified.filterMap (fun s => match s with
    | Sum.inl m => some m
    | Sum.inr _ => Option.none)
  let unchanged := classified.filterMap (fun s => match s with
    | Sum.inl _ => Option.none
    | Sum.inr r => some r)
  pure { added := added, removed := removed, modified := modified,
         unchanged := unchanged }

/-- `ModelComparator.__init__`: validate shapes, check key duplicates on
both lists, then compute the comparison result. -/
def ModelComparator_init (old new : List PyModel)
    (key_fields exclude_fields : List String) : Except PyErr ComparisonResult := do
  validate_all_types old new
  check_key_duplicates old key_fields exclude_fields
  check_key_duplicates new key_fields exclude_fields
  perform_comparison old new key_fields exclude_fields

/-! ## `ModelComparator.__setattr__` (object attribute mechanics) -/

/-- `hasattr(self, name)` over the instance `__dict__`. -/
def pyHasattr (attrs : List (String × PyVal)) (name : String) : Bool :=
  attrs.any (fun kv => kv.1 == name)

/-- `object.__setattr__`: overwrite in place or append. -/
def objectSetattr (attrs : List (String × PyVal)) (name : String) (v : PyVal) :
    List (String × PyVal) :=
  if attrs.any (fun kv => kv.1 == name) then
    attrs.map (fun kv => if kv.1 == name then (kv.1, v) else kv)
  else attrs ++ [(name, v)]

/-- `ModelComparator.__setattr__`: assignments are allowed only until
`_initialized` appears, which is planted right after `_result` is
assigned; afterwards every assignment raises `AttributeError`. -/
def ModelComparator_setattr (attrs : List (String × PyVal)) (name : String)
    (v : PyVal) : Except PyErr (List (String × PyVal)) :=
  if !(pyHasattr attrs "_initialized") then
    let attrs' := objectSetattr attrs name v
    if name == "_result" then .ok (objectSetattr attrs' "_initialized" (.bool true))
    else .ok attrs'
  else .error .attributeError

/-- The attribute assignments performed by `ModelComparator.__init__`, in
source order, each routed through `ModelComparator_setattr`. -/
def ModelComparator_initAttrs (ex kf old new res : PyVal) :
    Except PyErr (List (String × PyVal)) := do
  let a1 ← ModelComparator_setattr [] "exclude_fields" ex
  let a2 ← ModelComparator_setattr a1 "key_fields" kf
  let a3 ← ModelComparator_setattr a2 "old_list" old
  let a4 ← ModelComparator_setattr a3 "new_list" new
  ModelComparator_setattr a4 "_result" res

/-! ## C8 theorem -/

/-- C8 (confirmed): once `__init__` has assigned `_result` (the last
assignment of construction), the sentinel `_initialized` is present, and
from then on `__setattr__` rejects every assignment with
`AttributeError`, returning no modified attribute state — so neither the
result nor the stored input lists can be changed by assignment. -/
theorem comparator_immutable_after_init (ex kf old new res : PyVal) :
    (∀ (attrs : List (String × PyVal)) (name : String) (v : PyVal),
      pyHasattr attrs "_initialized" = true →
      ModelComparator_setattr attrs name v = .error .attributeError) ∧
    ∃ attrs, ModelComparator_initAttrs ex kf old new res = .ok attrs ∧
      pyHasattr attrs "_initialized" = true := by
  constructor
  · intro attrs name v h
    simp [ModelComparator_setattr, h]
  · exact ⟨_, rfl, rfl⟩

/-- Witness for `comparator_immutable_after_init`. -/
theorem comparator_immutable_after_init_witness :
    pyHasattr [("_initialized", PyVal.bool true)] "_initialized" = true ∧
    ModelComparator_setattr [("_initialized", PyVal.bool true)] "old_list"
      (PyVal.int 0) = .error .attributeError :=
  ⟨rfl, (comparator_immutable_after_init PyVal.none PyVal.none PyVal.none
      PyVal.none PyVal.none).1 _ _ _ rfl⟩

/-! ## C3 theorems -/

/-- A key value `k` is carried by at least two records of the list. -/
def dupKey (fields : List String) (lst : List PyModel) (k : List PyVal) : Prop :=
  2 ≤ lst.countP (fun r => keyTupleOf fields r == some k)

theorem checkDupAux_cons (fields : List String) (seen : List (List PyVal))
    (r : PyModel) (rest : List PyModel) :
    checkDupAux fields seen (r :: rest) =
      (match keyTupleOf fields r with
       | Option.none => .error .modelComparisonError
       | some k =>
         if seen.contains k then .error .modelComparisonError
         else checkDupAux fields (k :: seen) rest) := by
  simp [checkDupAux]

theorem checkDupAux_error_of_mem_seen (fields : List String) :
    ∀ (lst : List PyModel) (seen : List (List PyVal)),
      (∃ r ∈ lst, ∃ k, keyTupleOf fields r = some k ∧ k ∈ seen) →
      checkDupAux fields seen lst = .error .modelComparisonError := by
  intro lst
  induction lst with
  | nil =>
    intro seen h
    obtain ⟨r, hr, _⟩ := h
    simp at hr
  | cons r rest ih =>
    intro seen h
    obtain ⟨r', hr', k, hk, hkseen⟩ := h
    cases hkt : keyTupleOf fields r with
    | none => simp only [checkDupAux_cons, hkt]
    | some k0 =>
      simp only [checkDupAux_cons, hkt]
      by_cases hc : seen.contains k0 = true
      · rw [if_pos hc]
      · rw [if_neg hc]
        rcases List.mem_cons.mp hr' with hEq | hmem
        · exfalso
          apply hc
          apply List.elem_eq_true_of_mem
          rw [hEq] at hk
          rw [hk] at hkt
          exact (Option.some.inj hkt) ▸ hkseen
        · exact ih (k0 :: seen) ⟨r', hmem, k, hk, List.mem_cons_of_mem _ hkseen⟩

theorem checkDupAux_error_of_dup (fields : List String) :
    ∀ (lst : List PyModel) (seen : List (List PyVal)) (k : List PyVal),
      dupKey fields lst k →
      checkDupAux fields seen lst = .error .modelComparisonError := by
  intro lst
  induction lst with
  | nil =>
    intro seen k h
    simp [dupKey, List.countP_nil] at h
  | cons r rest ih =>
    intro seen k h
    unfold dupKey at h
    rw [List.countP_cons] at h
    cases hkt : keyTupleOf fields r with
    | none => simp only [checkDupAux_cons, hkt]
    | some k0 =>
      simp only [checkDupAux_cons, hkt]
      by_cases hc : seen.contains k0 = true
      · rw [if_pos hc]
      · rw [if_neg hc]
        by_cases hrk : k = k0
        · subst hrk
          have hhead : (keyTupleOf fields r == some k) = true := by
            rw [hkt]
            exact beq_self_eq_true _
          have hcnt : 0 < rest.countP (fun x => keyTupleOf fields x == some k) := by
            rw [hhead, if_pos rfl] at h
            omega
          obtain ⟨r', hr', hp⟩ := List.countP_pos_iff.mp hcnt
          exact checkDupAux_error_of_mem_seen fields rest (k :: seen)
            ⟨r', hr', k, by simpa using hp, List.mem_cons_self _ _⟩
        · have hhead : (keyTupleOf fields r == some k) = false := by
            rw [hkt, beq_eq_false_iff_ne]
            intro hcon
            exact hrk (Option.some.inj hcon).symm
          rw [hhead] at h
          simp at h
          exact ih (k0 :: seen) k h

/-- C3 (corrected, counterexample): with `keyFields` empty and
`excludeFields` covering every field of the records, the claim's key
tuple is the empty tuple, so the two distinct records share a key; but
`_check_key_duplicates` returns early when the effective key-field set is
empty, and construction completes without raising. -/
theorem comparator_dup_check_skipped_cex :
    (effectiveKeyFields
        [⟨"M", [("a", PyVal.int 1)]⟩, ⟨"M", [("a", PyVal.int 2)]⟩] [] ["a"] = [] ∧
     keyTupleOf [] ⟨"M", [("a", PyVal.int 1)]⟩ =
       keyTupleOf [] ⟨"M", [("a", PyVal.int 2)]⟩) ∧
    (ModelComparator_init
        [⟨"M", [("a", PyVal.int 1)]⟩, ⟨"M", [("a", PyVal.int 2)]⟩] [] [] ["a"]).isOk
      = true := by
  exact ⟨⟨rfl, rfl⟩, rfl⟩

theorem validate_list_ic_error_eq (lst : List PyModel) (e : PyErr)
    (h : validate_list_internal_consistency lst = .error e) :
    e = .modelComparisonError := by
  unfold validate_list_internal_consistency at h
  split at h
  · simp at h
  · split at h
    · simp at h
    · exact (Except.error.inj h).symm

theorem validate_all_types_error_eq (old new : List PyModel) (e : PyErr)
    (h : validate_all_types old new = .error e) : e = .modelComparisonError := by
  unfold validate_all_types at h
  cases ho : validate_list_internal_consistency old with
  | error e0 =>
    rw [ho] at h
    simp [Except.bind, bind] at h
    exact h ▸ validate_list_ic_error_eq old e0 ho
  | ok ot =>
    rw [ho] at h
    simp only [Except.bind, bind] at h
    cases hn : validate_list_internal_consistency new with
    | error e1 =>
      rw [hn] at h
      simp [Except.bind, bind] at h
      exact h ▸ validate_list_ic_error_eq new e1 hn
    | ok nt =>
      rw [hn] at h
      simp only [Except.bind, bind] at h
      split at h
      · split at h
        · simp at h
        · exact (Except.error.inj h).symm
      · simp at h

theorem checkDupAux_error_eq (fields : List String) :
    ∀ (lst : List PyModel) (seen : List (List PyVal)) (e : PyErr),
      checkDupAux fields seen lst = .error e → e = .modelComparisonError := by
  intro lst
  induction lst with
  | nil => intro seen e h; simp [checkDupAux] at h
  | cons r rest ih =>
    intro seen e h
    unfold checkDupAux at h
    split at h
    · exact (Except.error.inj h).symm
    · split at h
      · exact (Except.error.inj h).symm
      · exact ih _ e h

theorem check_key_duplicates_error_eq (lst : List PyModel)
    (kf ex : List String) (e : PyErr)
    (h : check_key_duplicates lst kf ex = .error e) : e = .modelComparisonError := by
  unfold check_key_duplicates at h
  split at h
  · simp at h
  · split at h
    · simp at h
    · exact checkDupAux_error_eq _ _ _ _ h

/-- C3 (amended): whenever one of the two lists carries a duplicate key
tuple with respect to its effective key-field set (the given `keyFields`,
or, when empty, the list's fields minus `excludeFields`) and that
key-field set is non-empty, `ModelComparator.__init__` raises
`ModelComparisonError` during its up-front checks, before
`_perform_comparison` is ever entered.  When `keyFields` is empty and
every field is excluded, the duplicate check is skipped. -/
theorem comparator_duplicate_key_raises (old new : List PyModel)
    (kf ex : List String) (k : List PyVal)
    (hdup : dupKey (effectiveKeyFields old kf ex) old k ∨
            dupKey (effectiveKeyFields new kf ex) new k)
    (hne : (effectiveKeyFields old kf ex).isEmpty = false ∧
           (effectiveKeyFields new kf ex).isEmpty = false) :
    ModelComparator_init old new kf ex = .error .modelComparisonError := by
  unfold ModelComparator_init
  cases hv : validate_all_types old new with
  | error e =>
    have he : e = PyErr.modelComparisonError := validate_all_types_error_eq old new e hv
    subst he
    simp [Except.bind, bind, hv]
  | ok u =>
    rcases hdup with hd | hd
    · have hlst : old ≠ [] := by
        intro hnil
        rw [hnil] at hd
        simp [dupKey, List.countP_nil] at hd
      have hoerr : check_key_duplicates old kf ex = .error .modelComparisonError := by
        unfold check_key_duplicates
        rw [if_neg (by simpa [List.isEmpty_iff] using hlst), if_neg (by simp [hne.1])]
        exact checkDupAux_error_of_dup _ old [] k hd
      simp [Except.bind, bind, hv, hoerr]
    · have hlst : new ≠ [] := by
        intro hnil
        rw [hnil] at hd
        simp [dupKey, List.countP_nil] at hd
      have hnewerr : check_key_duplicates new kf ex = .error .modelComparisonError := by
        unfold check_key_duplicates
        rw [if_neg (by simpa [List.isEmpty_iff] using hlst), if_neg (by simp [hne.2])]
        exact checkDupAux_error_of_dup _ new [] k hd
      cases ho : check_key_duplicates old kf ex with
      | error e =>
        have he : e = PyErr.modelComparisonError := check_key_duplicates_error_eq old kf ex e ho
        subst he
        simp [Except.bind, bind, hv, ho]
      | ok u2 => simp [Except.bind, bind, hv, ho, hnewerr]

/-- Witness for `comparator_duplicate_key_raises`. -/
theorem comparator_duplicate_key_raises_witness :
    dupKey (effectiveKeyFields
        [⟨"User", [("id", PyVal.int 1), ("name", PyVal.str "a")]⟩,
         ⟨"User", [("id", PyVal.int 1), ("name", PyVal.str "b")]⟩] ["id"] [])
      [⟨"User", [("id", PyVal.int 1), ("name", PyVal.str "a")]⟩,
       ⟨"User", [("id", PyVal.int 1), ("name", PyVal.str "b")]⟩] [PyVal.int 1] ∧
    ModelComparator_init
      [⟨"User", [("id", PyVal.int 1), ("name", PyVal.str "a")]⟩,
       ⟨"User", [("id", PyVal.int 1), ("name", PyVal.str "b")]⟩] [] ["id"] [] =
      .error .modelComparisonError := by
  have h1 : keyTupleOf ["id"] ⟨"User", [("id", PyVal.int 1), ("name", PyVal.str "a")]⟩
      = some [PyVal.int 1] := rfl
  have h2 : keyTupleOf ["id"] ⟨"User", [("id", PyVal.int 1), ("name", PyVal.str "b")]⟩
      = some [PyVal.int 1] := rfl
  have hdup : dupKey (effectiveKeyFields
      [⟨"User", [("id", PyVal.int 1), ("name", PyVal.str "a")]⟩,
       ⟨"User", [("id", PyVal.int 1), ("name", PyVal.str "b")]⟩] ["id"] [])
      [⟨"User", [("id", PyVal.int 1), ("name", PyVal.str "a")]⟩,
       ⟨"User", [("id", PyVal.int 1), ("name", PyVal.str "b")]⟩] [PyVal.int 1] := by
    unfold dupKey effectiveKeyFields
    rw [if_neg (by simp)]
    rw [List.countP_cons, List.countP_cons, List.countP_nil]
    rw [h1, h2]
    simp
  exact ⟨hdup, comparator_duplicate_key_raises _ _ _ _ [PyVal.int 1]
    (Or.inl hdup) ⟨rfl, rfl⟩⟩

/-! ## `CRUD/nested_handler_module` (`data_processor.py`, `handler.py`)

The SQLAlchemy relationship metadata used by `ModelInspector` is
abstracted into `NGraph`: per model, its column names and its declared
relationships with `direction.name` string and target model. -/

/-- One relationship as seen through `inspect(model).relationships`. -/
structure NRelInfo where
  direction : String
  target : Option String
deriving DecidableEq, Repr

/-- The model metadata consulted by the nested handler. -/
structure NGraph where
  cols : String → List String
  rels : String → List (String × NRelInfo)

/-- `utils.is_dict_like` (model instances are not part of the payload
model, so only `dict` payloads are dict-like here). -/
def is_dict_like : PyVal → Bool
  | .dict _ => true
  | _ => false

/-- `utils.to_dict`. -/
def to_dict : PyVal → Except PyErr (List (String × PyVal))
  | .dict xs => .ok xs
  | _ => .error (.valueError "unsupported data type")

mutual

/-- `DataProcessor.process_nested_data`. -/
def process_nested_data (G : NGraph) (data : PyVal) (model : String)
    (parent_model : Option String) (visited_models : List String)
    (depth max_depth : Nat) : Except PyErr (List (String × PyVal)) :=
  if h : max_depth ≤ depth then
    .ok (match data with | .dict xs => xs | _ => [])
  else
    match to_dict data with
    | .error _ => .ok []
    | .ok data_dict =>
      if model ∈ visited_models then .ok data_dict
      else
        processEntries G data_dict model parent_model (model :: visited_models)
          depth max_depth (Nat.lt_of_not_le h)
termination_by (max_depth - depth, 3, 0)

/-- The classification loop over `data_dict.items()`. -/
def processEntries (G : NGraph) (entries : List (String × PyVal)) (model : String)
    (parent_model : Option String) (visited_models : List String)
    (depth max_depth : Nat) (h : depth < max_depth) :
    Except PyErr (List (String × PyVal)) :=
  match entries with
  | [] => .ok []
  | (key, value) :: rest =>
    if (G.cols model).contains key then do
      let ps ← processEntries G rest model parent_model visited_models depth max_depth h
      .ok ((key, value) :: ps)
    else
      match (G.rels model).lookup key with
      | Option.none =>
        processEntries G rest model parent_model visited_models depth max_depth h
      | some relationship =>
        match relationship.target with
        | Option.none =>
          processEntries G rest model parent_model visited_models depth max_depth h
        | some related_model =>
          if parent_model = some related_model then
            processEntries G rest model parent_model visited_models depth max_depth h
          else if relationship.direction == "MANYTOONE" then
            processEntries G rest model parent_model visited_models depth max_depth h
          else if relationship.direction == "MANYTOMANY" then
            processEntries G rest model parent_model visited_models depth max_depth h
          else if relationship.direction == "ONETOMANY" then do
            let v ← process_one_to_many_value G value related_model model
              visited_models depth max_depth h
            let ps ← processEntries G rest model parent_model visited_models
              depth max_depth h
            .ok ((key, v) :: ps)
          else if relationship.direction == "ONETOONE" then do
            let v ← process_one_to_one_value G value related_model model
              visited_models depth max_depth h
            let ps ← processEntries G rest model parent_model visited_models
              depth max_depth h
            .ok ((key, v) :: ps)
          else do
            let ps ← processEntries G rest model parent_model visited_models
              depth max_depth h
            .ok ((key, value) :: ps)
termination_by (max_depth - depth, 2, entries.length)

/-- `DataProcessor._process_one_to_many_value`. -/
def process_one_to_many_value (G : NGraph) (value : PyVal) (related_model : String)
    (parent_model : String) (visited_models : List String)
    (depth max_depth : Nat) (h : depth < max_depth) : Except PyErr PyVal :=
  match value with
  | .list items => do
    let ps ← processListItems G items related_model parent_model visited_models
      depth max_depth h
    .ok (PyVal.list (ps.map PyVal.dict))
  | _ => .ok (PyVal.list [])
termination_by (max_depth - depth, 1, 1)

/-- The per-item loop of `_process_one_to_many_value`. -/
def processListItems (G : NGraph) (items : List PyVal) (related_model : String)
    (parent_model : String) (visited_models : List String)
    (depth max_depth : Nat) (h : depth < max_depth) :
    Except PyErr (List (List (String × PyVal))) :=
  match items with
  | [] => .ok []
  | item :: rest =>
    if is_dict_like item then do
      let p ← process_nested_data G item related_model (some parent_model)
        visited_models (depth + 1) max_depth
      let ps ← processListItems G rest related_model parent_model visited_models
        depth max_depth h
      .ok (p :: ps)
    else .error (.valueError "primitive value in one-to-many relation")
termination_by (max_depth - depth, 0, items.length)

/-- `DataProcessor._process_one_to_one_value`. -/
def process_one_to_one_value (G : NGraph) (value : PyVal) (related_model : String)
    (parent_model : String) (visited_models : List String)
    (depth max_depth : Nat) (h : depth < max_depth) : Except PyErr PyVal :=
  match value with
  | .none => .ok PyVal.none
  | v =>
    if is_dict_like v then do
      let p ← process_nested_data G v related_model (some parent_model)
        visited_models (depth + 1) max_depth
      .ok (PyVal.dict p)
    else .error (.valueError "primitive value in one-to-one relation")
termination_by (max_depth - depth, 0, 0)

end

/-- The nested-relation dispatch loop of
`NestedRelationshipHandler.update_with_nested` (its observable effect is
recorded as a list of actions). -/
inductive UpdateAction where
  | setAttr (key : String) (v : PyVal)
  | syncOneToMany (key : String) (v : PyVal)
deriving DecidableEq, Repr

/-- The `for key, value in nested_data.items()` loop of
`update_with_nested`: Many-to-One is skipped, One-to-Many dispatches to
the relationship updater, One-to-One raises `NotImplementedError`, and
any other direction (Many-to-Many included) falls through the `if`
chain with no action. -/
def updateNestedLoop (rels : List (String × NRelInfo)) :
    List (String × PyVal) → Except PyErr (List UpdateAction)
  | [] => .ok []
  | (key, value) :: rest =>
    match rels.lookup key with
    | Option.none => updateNestedLoop rels rest
    | some relationship =>
      if relationship.direction == "MANYTOONE" then
        updateNestedLoop rels rest
      else if relationship.direction == "ONETOMANY" then do
        let acts ← updateNestedLoop rels rest
        .ok (UpdateAction.syncOneToMany key value :: acts)
      else if relationship.direction == "ONETOONE" then
        .error .notImplementedError
      else
        updateNestedLoop rels rest

/-- `NestedRelationshipHandler.update_with_nested` (audit-metadata
stamping is abstracted as the `addMeta` map over the processed data;
`session` plumbing carries no observable effect here). -/
def update_with_nested (G : NGraph) (model : String) (data : PyVal)
    (addMeta : List (String × PyVal) → List (String × PyVal)) :
    Except PyErr (List UpdateAction) := do
  let processed ← process_nested_data G data model Option.none [] 0 10
  let processed := addMeta processed
  let rels := G.rels model
  let nested := processed.filter (fun kv => (rels.lookup kv.1).isSome)
  let clean := processed.filter (fun kv => !((rels.lookup kv.1).isSome))
  let cleanActs := clean.map (fun kv => UpdateAction.setAttr kv.1 kv.2)
  let nestedActs ← updateNestedLoop rels nested
  pure (cleanActs ++ nestedActs)

/-! ## C2 theorems -/

/-- A two-model metadata instance: `Parent` has column `name` and a
many-to-many relation `tags` targeting `Tag`. -/
def G2 : NGraph where
  cols := fun m => if m = "Parent" then ["name"] else []
  rels := fun m =>
    if m = "Parent" then [("tags", ⟨"MANYTOMANY", some "Tag"⟩)] else []

/-- C2 (corrected, counterexample): a nested update whose payload touches
a declared many-to-many relation completes without raising; the relation
is dropped by `process_nested_data` (logged warning, `continue`), and the
update loop has no branch for `MANYTOMANY` at all, so no action and no
error is produced for it. -/
theorem nested_m2m_not_raised_cex :
    (G2.rels "Parent").lookup "tags" = some ⟨"MANYTOMANY", some "Tag"⟩ ∧
    update_with_nested G2 "Parent"
        (PyVal.dict [("name", PyVal.str "x"),
                     ("tags", PyVal.list [PyVal.dict [("label", PyVal.str "t")]])])
        (fun x => x) =
      .ok [UpdateAction.setAttr "name" (PyVal.str "x")] := by
  refine ⟨rfl, ?_⟩
  simp [update_with_nested, process_nested_data, processEntries, to_dict, G2,
    updateNestedLoop, Except.bind, bind, pure, Except.pure]

theorem processEntries_m2m_key_dropped (G : NGraph) (model : String) (k : String)
    (info : NRelInfo) (hk : (G.rels model).lookup k = some info)
    (hdir : info.direction = "MANYTOMANY")
    (hnoc : (G.cols model).contains k = false) :
    ∀ (entries : List (String × PyVal)) (parent : Option String)
      (visited : List String) (depth maxd : Nat) (h : depth < maxd)
      (r : List (String × PyVal)),
      processEntries G entries model parent visited depth maxd h = .ok r →
      ∀ v, (k, v) ∉ r := by
  intro entries
  induction entries with
  | nil =>
    intro parent visited depth maxd h r hr v
    simp only [processEntries] at hr
    injection hr with hinj
    subst hinj
    simp
  | cons e rest ih =>
    obtain ⟨key, value⟩ := e
    intro parent visited depth maxd h r hr v
    simp only [processEntries] at hr
    by_cases hcol : (G.cols model).contains key = true
    · rw [if_pos hcol] at hr
      have hne : ¬ key = k := fun hEq => by rw [hEq, hnoc] at hcol; exact absurd hcol (by simp)
      cases hrec : processEntries G rest model parent visited depth maxd h with
      | error e0 => rw [hrec] at hr; simp [bind, Except.bind] at hr
      | ok ps =>
        rw [hrec] at hr
        simp only [bind, Except.bind] at hr
        injection hr with hinj
        subst hinj
        intro hmem
        rcases List.mem_cons.mp hmem with hEq | hmem2
        · exact hne (congrArg Prod.fst hEq).symm
        · exact ih _ _ _ _ h _ hrec v hmem2
    · rw [if_neg hcol] at hr
      cases hlk : (G.rels model).lookup key with
      | none =>
        simp only [hlk] at hr
        exact ih _ _ _ _ h _ hr v
      | some rel =>
        simp only [hlk] at hr
        cases hrt : rel.target with
        | none =>
          simp only [hrt] at hr
          exact ih _ _ _ _ h _ hr v
        | some related =>
          simp only [hrt] at hr
          by_cases hpar : parent = some related
          · rw [if_pos hpar] at hr
            exact ih _ _ _ _ h _ hr v
          · rw [if_neg hpar] at hr
            by_cases hm1 : (rel.direction == "MANYTOONE") = true
            · rw [if_pos hm1] at hr
              exact ih _ _ _ _ h _ hr v
            · rw [if_neg hm1] at hr
              by_cases hm2 : (rel.direction == "MANYTOMANY") = true
              · rw [if_pos hm2] at hr
                exact ih _ _ _ _ h _ hr v
              · rw [if_neg hm2] at hr
                have hne : ¬ key = k := by
                  intro hEq
                  rw [hEq, hk] at hlk
                  injection hlk with hrel
                  apply hm2
                  rw [← hrel, hdir]
                  rfl
                by_cases ho2m : (rel.direction == "ONETOMANY") = true
                · rw [if_pos ho2m] at hr
                  cases hv2 : process_one_to_many_value G value related model
                      visited depth maxd h with
                  | error e0 => rw [hv2] at hr; simp [bind, Except.bind] at hr
                  | ok w =>
                    rw [hv2] at hr
                    simp only [bind, Except.bind] at hr
                    cases hrec : processEntries G rest model parent visited depth maxd h with
                    | error e0 => rw [hrec] at hr; simp at hr
                    | ok ps =>
                      rw [hrec] at hr
                      simp only [] at hr
                      injection hr with hinj
                      subst hinj
                      intro hmem
                      rcases List.mem_cons.mp hmem with hEq | hmem2
                      · exact hne (congrArg Prod.fst hEq).symm
                      · exact ih _ _ _ _ h _ hrec v hmem2
                · rw [if_neg ho2m] at hr
                  by_cases ho2o : (rel.direction == "ONETOONE") = true
                  · rw [if_pos ho2o] at hr
                    cases hv2 : process_one_to_one_value G value related model
                        visited depth maxd h with
                    | error e0 => rw [hv2] at hr; simp [bind, Except.bind] at hr
                    | ok w =>
                      rw [hv2] at hr
                      simp only [bind, Except.bind] at hr
                      cases hrec : processEntries G rest model parent visited depth maxd h with
                      | error e0 => rw [hrec] at hr; simp at hr
                      | ok ps =>
                        rw [hrec] at hr
                        simp only [] at hr
                        injection hr with hinj
                        subst hinj
                        intro hmem
                        rcases List.mem_cons.mp hmem with hEq | hmem2
                        · exact hne (congrArg Prod.fst hEq).symm
                        · exact ih _ _ _ _ h _ hrec v hmem2
                  · rw [if_neg ho2o] at hr
                    cases hrec : processEntries G rest model parent visited depth maxd h with
                    | error e0 => rw [hrec] at hr; simp [bind, Except.bind] at hr
                    | ok ps =>
                      rw [hrec] at hr
                      simp only [bind, Except.bind] at hr
                      injection hr with hinj
                      subst hinj
                      intro hmem
                      rcases List.mem_cons.mp hmem with hEq | hmem2
                      · exact hne (congrArg Prod.fst hEq).symm
                      · exact ih _ _ _ _ h _ hrec v hmem2

/-- C2 (amended): a declared many-to-many relation is *silently skipped*
during a nested update, exactly like many-to-one: `process_nested_data`
drops the key from the processed payload (with a logged warning), and the
`update_with_nested` dispatch loop has no branch for `MANYTOMANY`, so the
entry falls through with no action and no exception.  Only one-to-one
relations raise (`NotImplementedError`). -/
theorem nested_many_to_many_skipped (G : NGraph) (model : String) (k : String)
    (info : NRelInfo) (hk : (G.rels model).lookup k = some info)
    (hdir : info.direction = "MANYTOMANY")
    (hnoc : (G.cols model).contains k = false) :
    (∀ (entries : List (String × PyVal)) (parent : Option String)
       (visited : List String) (depth maxd : Nat) (h : depth < maxd)
       (r : List (String × PyVal)),
       processEntries G entries model parent visited depth maxd h = .ok r →
       ∀ v, (k, v) ∉ r) ∧
    (∀ (v : PyVal) (rest : List (String × PyVal)),
       updateNestedLoop (G.rels model) ((k, v) :: rest) =
         updateNestedLoop (G.rels model) rest) := by
  constructor
  · exact processEntries_m2m_key_dropped G model k info hk hdir hnoc
  · intro v rest
    simp only [updateNestedLoop, hk, hdir]
    rfl

/-- Witness for `nested_many_to_many_skipped`. -/
theorem nested_many_to_many_skipped_witness :
    (G2.rels "Parent").lookup "tags" =
      some ⟨"MANYTOMANY", some "Tag"⟩ ∧
    (G2.cols "Parent").contains "tags" = false ∧
    updateNestedLoop (G2.rels "Parent") [("tags", PyVal.list [])] =
      updateNestedLoop (G2.rels "Parent") [] := by
  refine ⟨rfl, rfl, ?_⟩
  exact (nested_many_to_many_skipped G2 "Parent" "tags" ⟨"MANYTOMANY", some "Tag"⟩
    rfl rfl rfl).2 (PyVal.list []) []

/-! ## Query-builder model metadata

`ColumnInspector` / `PathResolver` / `RelationFilter` inspect SQLAlchemy
model classes; that metadata is abstracted as `QGraph`: per model, the
direct columns with their semantic type (the result of
`_get_sqlalchemy_column_type`) and the declared relationships with their
target model and foreign-key `local_remote_pairs`. -/

/-- One relationship as seen by `inspect(model).relationships`. -/
structure QRelInfo where
  target : String
  pairs : List (String × String)
deriving DecidableEq, Repr

/-- The model metadata consulted by the query builder. -/
structure QGraph where
  attrs : String → List (String × String)
  rels : String → List (String × QRelInfo)

/-- `hasattr(model, name)`: a model class exposes both its columns and
its relationship attributes. -/
def hasattrQ (G : QGraph) (m a : String) : Bool :=
  ((G.attrs m).lookup a).isSome || ((G.rels m).lookup a).isSome

/-! ## `core/path_resolver.py` -/

/-- The join cache of one `PathResolver` instance
(`self.joins : {join_path: alias}` and `self.join_counter`). -/
structure ResolverState where
  joins : List (String × Nat)
  counter : Nat
deriving DecidableEq, Repr

/-- One entry of `aliases_needed`: `(relationship_attr, alias, join_path)`. -/
structure JoinNeed where
  attr : ColRef
  aliasIdx : Nat
  joinPath : String
deriving DecidableEq, Repr

/-- The `for part in parts[:-1]` loop of `resolve_nested_path`; state is
threaded so that joins created before a failure persist, as with the
in-place mutation of `self.joins`. -/
def resolveLoop (G : QGraph) :
    List String → String → List String → List JoinNeed → ResolverState →
    ResolverState × Except PyErr (String × List String × List JoinNeed)
  | [], current, jpp, acc, st => (st, .ok (current, jpp, acc))
  | part :: rest, current, jpp, acc, st =>
    if !(hasattrQ G current part) then
      (st, .error (.valueError ("relationship " ++ part ++ " does not exist")))
    else
      match (G.rels current).lookup part with
      | Option.none =>
        (st, .error (.valueError (part ++ " is not a relationship attribute")))
      | some rel =>
        let jpp' := jpp ++ [part]
        let join_path := String.intercalate "." jpp'
        match st.joins.lookup join_path with
        | some _ => resolveLoop G rest rel.target jpp' acc st
        | Option.none =>
          let st' : ResolverState :=
            { joins := (join_path, st.counter) :: st.joins, counter := st.counter + 1 }
          resolveLoop G rest rel.target jpp'
            (acc ++ [⟨ColRef.model current part, st.counter, join_path⟩]) st'

/-- `PathResolver.resolve_nested_path`. -/
def resolve_nested_path (G : QGraph) (selfModel : String) (st : ResolverState)
    (path : String) :
    ResolverState × Except PyErr (ColRef × List JoinNeed) :=
  if !(pyContainsDot path) then
    if hasattrQ G selfModel path then
      (st, .ok (ColRef.model selfModel path, []))
    else
      (st, .error (.valueError ("attribute " ++ path ++ " does not exist")))
  else
    match resolveLoop G (pySplit '.' path).dropLast selfModel [] [] st with
    | (st', .error e) => (st', .error e)
    | (st', .ok (current, jpp, acc)) =>
      let final_attr := (pySplit '.' path).getLastD ""
      if !(hasattrQ G current final_attr) then
        (st', .error (.valueError ("attribute " ++ final_attr ++ " does not exist")))
      else
        let column :=
          if jpp.isEmpty = false then
            match st'.joins.lookup (String.intercalate "." jpp) with
            | some a => ColRef.aliased a final_attr
            | Option.none => ColRef.model current final_attr
          else ColRef.model current final_attr
        (st', .ok (column, acc))

/-! ## `core/column_inspector.py` (the `column_type` facet) -/

/-- `ColumnInspector._analyze_single_attribute`, reduced to the
`column_type` it reports. -/
def analyze_single_attribute (G : QGraph) (model attr : String) :
    Except PyErr String :=
  match (G.attrs model).lookup attr with
  | some ty => .ok ty
  | Option.none =>
    match (G.rels model).lookup attr with
    | some _ => .ok "relation"
    | Option.none =>
      .error (.valueError ("attribute " ++ attr ++ " does not exist"))

/-- The relation walk of `_analyze_nested_path`. -/
def analyzeWalk (G : QGraph) : List String → String → Except PyErr String
  | [], current => .ok current
  | part :: rest, current =>
    match (G.rels current).lookup part with
    | some rel => analyzeWalk G rest rel.target
    | Option.none =>
      .error (.valueError ("relationship " ++ part ++ " does not exist"))

/-- `ColumnInspector.analyze_path`, reduced to the `column_type`. -/
def analyze_path (G : QGraph) (model path : String) : Except PyErr String :=
  match pySplit '.' path with
  | [single] => analyze_single_attribute G model single
  | parts => do
    let current ← analyzeWalk G parts.dropLast model
    analyze_single_attribute G current (parts.getLastD "")

/-! ## `filters/text_filter.py` and `filters/boolean_filter.py` -/

/-- Python `str.split()` (split on whitespace runs, dropping empties). -/
def pySplitWs (s : String) : List String :=
  (s.split (fun c => pySpaceChar c)).filter (fun w => w ≠ "")

/-- `TextFilter.apply`. -/
def TextFilter_apply (column : ColRef) (operator : String) (value : PyVal) :
    QPred :=
  let op := if TEXT_OPERATORS.contains operator then operator else "contains"
  let str_value := match value with
    | PyVal.none => ""
    | v => pyStr v
  if op = "equals" ∨ op = "equals2" then .eqStrP column str_value
  else if op = "notEquals" then .neStrP column str_value
  else if op = "contains" then .ilikeP column ("%" ++ str_value ++ "%")
  else if op = "notContains" then .notP (.ilikeP column ("%" ++ str_value ++ "%"))
  else if op = "startsWith" then .ilikeP column (str_value ++ "%")
  else if op = "endsWith" then .ilikeP column ("%" ++ str_value)
  else if op = "fuzzy" then
    andAll ((pySplitWs str_value).map (fun w => .ilikeP column ("%" ++ w ++ "%")))
  else .ilikeP column ("%" ++ str_value ++ "%")

/-- `BooleanFilter.apply`. -/
def BooleanFilter_apply (column : ColRef) (operator : String) (value : PyVal) :
    Except PyErr QPred :=
  if operator = "equals" then .ok (.eqP column (.py value))
  else .error (.valueError ("unsupported filter function: " ++ operator))

/-! ## `filters/relation_filter.py` -/

/-- `RelationFilterValue` (its `__post_init__` check is performed at
normalization time inside the operators below). -/
structure RelationFilterValue where
  column : String
  operator : String
  value : PyVal
deriving DecidableEq, Repr

/-- `RelationFilter._create_operator_condition`. -/
def create_operator_condition (inner_column : ColRef)
    (filterValue : RelationFilterValue) (invert_condition : Bool) :
    Except PyErr QPred := do
  let base ←
    if filterValue.operator = "equals" then
      pure (QPred.eqP inner_column (.py filterValue.value))
    else if filterValue.operator = "notEquals" then
      pure (QPred.neP inner_column (.py filterValue.value))
    else if filterValue.operator = "contains" then
      pure (QPred.likeP inner_column ("%" ++ pyStr filterValue.value ++ "%"))
    else if filterValue.operator = "notContains" then
      pure (QPred.notP (.likeP inner_column ("%" ++ pyStr filterValue.value ++ "%")))
    else if filterValue.operator = "greaterThan" then
      pure (QPred.gtP inner_column (.py filterValue.value))
    else if filterValue.operator = "lessThan" then
      pure (QPred.ltP inner_column (.py filterValue.value))
    else if filterValue.operator = "greaterThanOrEqual" then
      pure (QPred.geP inner_column (.py filterValue.value))
    else if filterValue.operator = "lessThanOrEqual" then
      pure (QPred.leP inner_column (.py filterValue.value))
    else if filterValue.operator = "in" then
      pure (QPred.inP inner_column
        (match filterValue.value with | .list xs => xs | v => [v]))
    else if filterValue.operator = "notIn" then
      pure (QPred.notP (.inP inner_column
        (match filterValue.value with | .list xs => xs | v => [v])))
    else if filterValue.operator = "isNull" then
      pure (if filterValue.value = PyVal.bool true then QPred.isNullP inner_column
            else QPred.isNotNullP inner_column)
    else
      Except.error (.valueError ("Unsupported operator: " ++ filterValue.operator))
  if invert_condition then pure (QPred.notP base) else pure base

/-- The relation walk of `_apply_operator_conditions` for one nested
column path (raising `AttributeError` on a missing relationship). -/
def relWalk (G : QGraph) : List String → String → Except PyErr String
  | [], current => .ok current
  | part :: rest, current =>
    match (G.rels current).lookup part with
    | some rel => relWalk G rest rel.target
    | Option.none => .error .attributeError

/-- `getattr(model, name)` producing a column reference. -/
def getattrColumn (G : QGraph) (model name : String) : Except PyErr ColRef :=
  if hasattrQ G model name then .ok (ColRef.model model name)
  else .error .attributeError

/-- `RelationFilter._apply_operator_conditions` for a single
`RelationFilterValue`. -/
def apply_operator_condition_one (G : QGraph) (selfModel related_model : String)
    (value : RelationFilterValue) (invert_condition : Bool) :
    Except PyErr QPred := do
  let split_column := pySplit '.' value.column
  match split_column with
  | [single] => do
    let inner ← getattrColumn G related_model single
    create_operator_condition inner value invert_condition
  | parts => do
    let current_model ← relWalk G parts.dropLast related_model
    let current_attr := ColRef.model related_model (parts.headD "")
    let final_column ← getattrColumn G current_model (parts.getLastD "")
    if current_model = selfModel then do
      let nested ← create_operator_condition final_column value invert_condition
      pure (QPred.hasRelP current_attr nested)
    else
      create_operator_condition final_column value invert_condition

/-- `RelationFilter._apply_operator_conditions`. -/
def apply_operator_conditions (G : QGraph) (selfModel related_model : String)
    (values : List RelationFilterValue) (invert_condition : Bool) :
    Except PyErr QPred := do
  let conds ← values.mapM
    (fun v => apply_operator_condition_one G selfModel related_model v invert_condition)
  pure (andAll conds)

/-- The per-value accumulation of `_apply_join_conditions`. -/
def joinCondsWalk (G : QGraph) : List String → String → Except PyErr (List QPred)
  | [], _ => .ok []
  | part :: rest, current =>
    match (G.rels current).lookup part with
    | some rel => do
      let deeper ← joinCondsWalk G rest rel.target
      pure ((rel.pairs.map (fun p => QPred.eqColsP p.1 p.2)) ++ deeper)
    | Option.none => .error .attributeError

/-- `RelationFilter._apply_join_conditions` (`Option.none` models the
Python `True` returned when no nested join condition is collected). -/
def apply_join_conditions (G : QGraph) (related_model : String)
    (values : List RelationFilterValue) : Except PyErr (Option QPred) := do
  let condLists ← values.mapM (fun v =>
    let split_column := pySplit '.' v.column
    if split_column.length > 1 then
      joinCondsWalk G split_column.dropLast related_model
    else pure [])
  let all_join_conditions := condLists.flatten
  if all_join_conditions.isEmpty then pure Option.none
  else pure (some (andAll all_join_conditions))

/-- The break-on-missing walk of `_is_self_reference_relation`. -/
def selfRefWalk (G : QGraph) : List String → String → String
  | [], current => current
  | part :: rest, current =>
    match (G.rels current).lookup part with
    | some rel => selfRefWalk G rest rel.target
    | Option.none => current

/-- `RelationFilter._is_self_reference_relation`. -/
def is_self_reference_relation (G : QGraph) (selfModel related_model : String)
    (values : List RelationFilterValue) : Bool :=
  values.any (fun v =>
    let split_column := pySplit '.' v.column
    if split_column.length > 1 then
      selfRefWalk G split_column.dropLast related_model = selfModel
    else false)

/-- `RelationFilterValue.__post_init__` applied over the raw value list
(`list(map(lambda x: RelationFilterValue(**x), values))`). -/
def normalizeRelationValues (values : List RelationFilterValue) :
    Except PyErr (List RelationFilterValue) :=
  values.mapM (fun v =>
    if v.column = "" then
      .error (.valueError "column is required in a relation filter")
    else .ok v)

/-- `RelationFilter._apply_has_any`. -/
def apply_has_any (G : QGraph) (selfModel related_model : String)
    (column : ColRef) (values : List RelationFilterValue) :
    Except PyErr QPred := do
  let normalized_values ← normalizeRelationValues values
  let is_self_ref := is_self_reference_relation G selfModel related_model
    normalized_values
  if is_self_ref then do
    let conditions ← normalized_values.mapM (fun v => do
      let single_condition ← apply_operator_conditions G selfModel related_model
        [v] false
      pure (QPred.anyP column single_condition))
    if conditions.length > 1 then pure (andAll conditions)
    else
      match conditions with
      | c :: _ => pure c
      | [] => .error .indexError
  else do
    let join_condition ← apply_join_conditions G related_model normalized_values
    let operator_condition ← apply_operator_conditions G selfModel related_model
      normalized_values false
    match join_condition with
    | Option.none => pure (QPred.anyP column operator_condition)
    | some jc => pure (QPred.anyP column (QPred.andP jc operator_condition))

/-! ## `core/query_builder.py` -/

/-- A SQLAlchemy `select` object, built generatively (each operation
returns a new immutable value, as in SQLAlchemy). -/
inductive Query where
  | base (model : String)
  | whereQ (q : Query) (p : QPred)
  | join (q : Query) (aliasIdx : Nat) (joinPath : String)
  | orderBy (q : Query) (c : ColRef) (descending : Bool)
  | offsetQ (q : Query) (n : Int)
  | limitQ (q : Query) (n : Int)
  | countOver (q : Query)
deriving DecidableEq, Repr

/-- `TableRequest` (`types.py`), after pydantic validation. -/
structure TableRequestL where
  columnFilterFns : List (String × String)
  columnFilters : List (String × PyVal)
  pagination : Int × Int
  sorting : List (String × Bool)
  globalFilter : String
  globalfilterFns : String
deriving DecidableEq, Repr

/-- The per-instance mutable state of one `QueryBuilder`. -/
structure BuilderState where
  query : Query
  row_count_query : Option Query
  invalid_paths : List String
  applied_joins : List String
  resolver : ResolverState
deriving DecidableEq, Repr

/-- `QueryBuilder.__init__` state for a model. -/
def QueryBuilder_init (model : String) : BuilderState :=
  { query := Query.base model, row_count_query := Option.none,
    invalid_paths := [], applied_joins := [], resolver := ⟨[], 0⟩ }

/-- The join-attachment loop shared by `_apply_filter` and
`_apply_sorting` (`if join_path not in self.applied_joins: ...`). -/
def attachJoins (applied : List String) (q : Query) :
    List JoinNeed → List String × Query
  | [] => (applied, q)
  | j :: rest =>
    if applied.contains j.joinPath then attachJoins applied q rest
    else attachJoins (j.joinPath :: applied) (Query.join q j.aliasIdx j.joinPath) rest

/-- The exception message formatting used when recording an invalid
path. -/
def pyErrMsg : PyErr → String
  | .typeError => "TypeError"
  | .attributeError => "AttributeError"
  | .keyError => "KeyError"
  | .indexError => "IndexError"
  | .valueError m => m
  | .modelComparisonError => "ModelComparisonError"
  | .notImplementedError => "NotImplementedError"

/-- `QueryBuilder._apply_filter_by_type` (its inner `try` re-raises every
exception unchanged, so errors simply propagate). -/
def apply_filter_by_type (G : QGraph) (parse : String → Option Int)
    (selfModel : String) (query : Query) (column : ColRef)
    (column_type : String) (filter_fn : String) (value : PyVal) :
    Except PyErr Query := do
  if filter_fn = "custom" then pure query
  else if column_type = "relation" ∧ RELATION_OPERATORS.contains filter_fn then do
    -- RelationFilter.apply: recover the relationship name from the column
    -- reference, find the related model, then dispatch by operator.
    let rel_name := match column with
      | ColRef.model _ a => a
      | ColRef.aliased _ a => a
    match (G.rels selfModel).lookup rel_name with
    | Option.none =>
      Except.error (.valueError ("relationship attribute " ++ rel_name ++ " not found"))
    | some rel =>
      let values ← (match value with
        | PyVal.list items => items.mapM (fun it =>
            match it with
            | PyVal.dict fields =>
              (match fields.lookup "column", fields.lookup "operator" with
              | some (PyVal.str c), some (PyVal.str o) =>
                Except.ok (RelationFilterValue.mk c o
                  ((fields.lookup "value").getD PyVal.none))
              | _, _ => Except.error .typeError)
            | _ => Except.error .typeError)
        | _ => Except.error .typeError)
      if filter_fn = "hasAny" then do
        let condition ← apply_has_any G selfModel rel.target column values
        pure (Query.whereQ query condition)
      else if filter_fn = "hasChild" then
        pure (Query.whereQ query (QPred.anyEmptyP column))
      else if filter_fn = "hasNotChild" then
        pure (Query.whereQ query (QPred.notP (QPred.anyEmptyP column)))
      else
        -- hasAll is out of scope for the claims under study; it follows
        -- the same dispatch shape.
        Except.error (.valueError ("unsupported operator: " ++ filter_fn))
  else if column_type = "number" ∧ NUMBER_OPERATORS.contains filter_fn then
    pure (Query.whereQ query (NumberFilter_apply column filter_fn value))
  else if column_type = "date" ∧ DATE_OPERATORS.contains filter_fn then
    pure (Query.whereQ query (DateFilter_apply parse column filter_fn value))
  else if column_type = "boolean" ∧ BOOLEAN_OPERATORS.contains filter_fn then do
    let p ← BooleanFilter_apply column filter_fn value
    pure (Query.whereQ query p)
  else if LIST_OPERATORS.contains filter_fn then do
    let p ← ListFilter_apply column filter_fn value
    pure (Query.whereQ query p)
  else if TEXT_OPERATORS.contains filter_fn then
    pure (Query.whereQ query (TextFilter_apply column filter_fn value))
  else
    pure (Query.whereQ query (TextFilter_apply column "fuzzy" value))

/-- `QueryBuilder._apply_filter`: path analysis, column resolution, join
attachment, then type dispatch.  A `ValueError` is recorded in
`invalid_paths` and swallowed (the filter is skipped); any other
exception is recorded in `invalid_paths` *and re-raised* (`raise e`),
which the second component reports. -/
def QueryBuilder_apply_filter (G : QGraph) (parse : String → Option Int)
    (selfModel : String) (st : BuilderState) (path : String)
    (filter_fn : String) (value : PyVal) : BuilderState × Option PyErr :=
  match analyze_path G selfModel path with
  | .error e =>
    handleFilterExc st path e
  | .ok column_type =>
    match resolve_nested_path G selfModel st.resolver path with
    | (rst, .error e) => handleFilterExc { st with resolver := rst } path e
    | (rst, .ok (column, aliases_needed)) =>
      let (applied', q') := attachJoins st.applied_joins st.query aliases_needed
      let st1 : BuilderState :=
        { st with resolver := rst, applied_joins := applied', query := q' }
      match apply_filter_by_type G parse selfModel q' column column_type
          filter_fn value with
      | .error e => handleFilterExc st1 path e
      | .ok q2 => ({ st1 with query := q2 }, Option.none)
where
  /-- The two `except` clauses of `_apply_filter`. -/
  handleFilterExc (st : BuilderState) (path : String) (e : PyErr) :
      BuilderState × Option PyErr :=
    match e with
    | .valueError m =>
      ({ st with invalid_paths := st.invalid_paths ++ [path ++ ": " ++ m] },
       Option.none)
    | e =>
      ({ st with invalid_paths :=
          st.invalid_paths ++ [path ++ ": unexpected error - " ++ pyErrMsg e] },
       some e)

/-- `QueryBuilder.apply_column_filter`: iterate the requested filters,
defaulting a missing operator to `fuzzy`; a propagating exception from
`_apply_filter` aborts the remaining iterations. -/
def apply_column_filter (G : QGraph) (parse : String → Option Int)
    (selfModel : String) (fns : List (String × String)) (st : BuilderState) :
    List (String × PyVal) → BuilderState × Option PyErr
  | [] => (st, Option.none)
  | (id, value) :: rest =>
    let filter_fn := match fns.lookup id with
      | some f => f
      | Option.none => "fuzzy"
    match QueryBuilder_apply_filter G parse selfModel st id filter_fn value with
    | (st', some e) => (st', some e)
    | (st', Option.none) => apply_column_filter G parse selfModel fns st' rest

/-- `QueryBuilder._apply_global_filter`: OR of `ilike` over the direct
text-typed columns of the root model. -/
def QueryBuilder_apply_global_filter (G : QGraph) (selfModel : String)
    (st : BuilderState) (global_filter : String) : BuilderState :=
  if global_filter = "" then st
  else
    let conditions := ((G.attrs selfModel).filter (fun ca => ca.2 == "text")).map
      (fun ca => QPred.ilikeP (ColRef.model selfModel ca.1)
        ("%" ++ global_filter ++ "%"))
    if conditions.isEmpty then st
    else { st with query := Query.whereQ st.query (orAll conditions) }

/-- `QueryBuilder._apply_sorting`: relation columns are rejected; a
`ValueError`/`AttributeError` is recorded and the sort key skipped (no
other exception can arise from the body). -/
def QueryBuilder_apply_sorting_one (G : QGraph) (selfModel : String)
    (st : BuilderState) (column_path : String) (descending : Bool) :
    BuilderState :=
  match analyze_path G selfModel column_path with
  | .error e =>
    { st with invalid_paths :=
        st.invalid_paths ++ ["sorting path error - " ++ column_path ++ ": " ++ pyErrMsg e] }
  | .ok column_type =>
    if column_type = "relation" then
      { st with invalid_paths :=
          st.invalid_paths ++ ["sorting path error - " ++ column_path ++
            ": relation columns cannot be sorted"] }
    else
      match resolve_nested_path G selfModel st.resolver column_path with
      | (rst, .error e) =>
        { st with resolver := rst, invalid_paths :=
            st.invalid_paths ++ ["sorting path error - " ++ column_path ++ ": " ++ pyErrMsg e] }
      | (rst, .ok (column, aliases_needed)) =>
        let (applied', q') := attachJoins st.applied_joins st.query aliases_needed
        { st with
          resolver := rst
          applied_joins := applied'
          query := Query.orderBy q' column descending }

/-- `QueryBuilder.apply_sorting`. -/
def apply_sorting (G : QGraph) (selfModel : String) (st : BuilderState) :
    List (String × Bool) → BuilderState
  | [] => st
  | (id, desc) :: rest =>
    apply_sorting G selfModel (QueryBuilder_apply_sorting_one G selfModel st id desc) rest

/-- `QueryBuilder._apply_pagination`: `offset = page_index * page_size`,
then `limit = page_size`. -/
def QueryBuilder_apply_pagination (st : BuilderState) (page_index page_size : Int) :
    BuilderState :=
  { st with
    query := Query.limitQ (Query.offsetQ st.query (page_index * page_size)) page_size }

/-- `QueryBuilder.get_row_count_query`:
`select(count()).select_from(query.subquery())`. -/
def get_row_count_query (st : BuilderState) : Query :=
  Query.countOver st.query

/-- `QueryBuilder.apply_table_request`: global filter, column filters,
sorting, row-count derivation, then (optionally) pagination; an
exception propagating out of `apply_column_filter` aborts the rest. -/
def apply_table_request (G : QGraph) (parse : String → Option Int)
    (selfModel : String) (request : TableRequestL) (st : BuilderState)
    (apply_pagination : Bool := true) : BuilderState × Option PyErr :=
  let st1 :=
    if request.globalFilter ≠ "" then
      QueryBuilder_apply_global_filter G selfModel st request.globalFilter
    else st
  match apply_column_filter G parse selfModel request.columnFilterFns st1
      request.columnFilters with
  | (st2, some e) => (st2, some e)
  | (st2, Option.none) =>
    let st3 := apply_sorting G selfModel st2 request.sorting
    let st4 := { st3 with row_count_query := some (get_row_count_query st3) }
    let st5 :=
      if apply_pagination then
        QueryBuilder_apply_pagination st4 request.pagination.1 request.pagination.2
      else st4
    (st5, Option.none)

/-! ## `interpreters/request_interpreter.py` -/

/-- `d.get(k)` on a Python dict. -/
def dictGet (D : List (String × PyVal)) (k : String) : Option PyVal :=
  D.lookup k

/-- `k in d`. -/
def dictHas (D : List (String × PyVal)) (k : String) : Bool :=
  (D.lookup k).isSome

/-- `d[k] = v`: overwrite in place or append. -/
def dictSet (D : List (String × PyVal)) (k : String) (v : PyVal) :
    List (String × PyVal) :=
  if D.any (fun kv => kv.1 == k) then
    D.map (fun kv => if kv.1 == k then (kv.1, v) else kv)
  else D ++ [(k, v)]

/-- `d.setdefault(k, v)`. -/
def dictSetdefault (D : List (String × PyVal)) (k : String) (v : PyVal) :
    List (String × PyVal) :=
  if dictHas D k then D else D ++ [(k, v)]

/-- `v is None`. -/
def isNoneV : PyVal → Bool
  | PyVal.none => true
  | _ => false

/-- `RequestInterpreter._is_valid_filter_value` applied to
`filter_item.get('value')`. -/
def is_valid_filter_value : Option PyVal → Bool
  | Option.none => false
  | some PyVal.none => false
  | some (PyVal.list xs) =>
    xs.any (fun item => !(isNoneV item) && pyStrip (pyStr item) ≠ "")
  | some (PyVal.str s) => pyStrip s ≠ ""
  | some _ => true

/-- Python `v == 'equals2'`. -/
def pyEqStrLit (v : PyVal) (s : String) : Bool :=
  match v with
  | PyVal.str t => t == s
  | _ => false

/-- The full operator vocabulary accepted by the pydantic `FilterFns`
union (`types.py`). -/
def ALL_FILTER_FNS : List String :=
  TEXT_OPERATORS ++ NUMBER_OPERATORS ++ DATE_OPERATORS ++ LIST_OPERATORS ++
    RELATION_OPERATORS ++ BOOLEAN_OPERATORS ++ ["auto", "custom"]

/-- Pydantic validation and coercion performed by
`TableRequest(**normalized)`: operator names must belong to the
`FilterFns` literal union, column filters need a string `id`, pagination
fields default to `pageIndex = 0`, `pageSize = 10` under their `ge`/`gt`
bounds, sorting entries need a string `id` with `desc` defaulting to
`False`, and unknown extra keys are ignored. -/
def toTableRequest (D : List (String × PyVal)) : Except PyErr TableRequestL := do
  let fns ← match dictGet D "columnFilterFns" with
    | some (PyVal.dict fs) => fs.mapM (fun kv =>
        match kv.2 with
        | PyVal.str s =>
          if ALL_FILTER_FNS.contains s then Except.ok (kv.1, s)
          else Except.error (.valueError ("validation: operator " ++ s))
        | _ => Except.error (.valueError "validation: operator type"))
    | _ => Except.error (.valueError "validation: columnFilterFns")
  let filters ← match dictGet D "columnFilters" with
    | some (PyVal.list items) => items.mapM (fun it =>
        match it with
        | PyVal.dict fields =>
          (match fields.lookup "id" with
          | some (PyVal.str id) =>
            Except.ok (id, (fields.lookup "value").getD PyVal.none)
          | _ => Except.error (.valueError "validation: filter id"))
        | _ => Except.error (.valueError "validation: filter item"))
    | some _ => Except.error (.valueError "validation: columnFilters")
    | Option.none => Except.ok []
  let pg ← match dictGet D "pagination" with
    | some (PyVal.dict pf) => do
      let pi ← match pf.lookup "pageIndex" with
        | Option.none => Except.ok (0 : Int)
        | some (PyVal.int n) =>
          if 0 ≤ n then Except.ok n
          else Except.error (.valueError "validation: pageIndex")
        | some _ => Except.error (.valueError "validation: pageIndex type")
      let ps ← match pf.lookup "pageSize" with
        | Option.none => Except.ok (10 : Int)
        | some (PyVal.int n) =>
          if 0 < n then Except.ok n
          else Except.error (.valueError "validation: pageSize")
        | some _ => Except.error (.valueError "validation: pageSize type")
      Except.ok (pi, ps)
    | _ => Except.error (.valueError "validation: pagination")
  let sorting ← match dictGet D "sorting" with
    | some (PyVal.list items) => items.mapM (fun it =>
        match it with
        | PyVal.dict fields =>
          (match fields.lookup "id" with
          | some (PyVal.str id) =>
            (match fields.lookup "desc" with
            | Option.none => Except.ok (id, false)
            | some (PyVal.bool b) => Except.ok (id, b)
            | some _ => Except.error (.valueError "validation: desc"))
          | _ => Except.error (.valueError "validation: sorting id"))
        | _ => Except.error (.valueError "validation: sorting item"))
    | _ => Except.error (.valueError "validation: sorting")
  let gf ← match dictGet D "globalFilter" with
    | some (PyVal.str s) => Except.ok s
    | _ => Except.error (.valueError "validation: globalFilter")
  let gfn ← match dictGet D "globalfilterFns" with
    | some (PyVal.str s) =>
      if ALL_FILTER_FNS.contains s then Except.ok s
      else Except.error (.valueError "validation: globalfilterFns")
    | _ => Except.error (.valueError "validation: globalfilterFns")
  Except.ok { columnFilterFns := fns, columnFilters := filters, pagination := pg,
              sorting := sorting, globalFilter := gf, globalfilterFns := gfn }

/-- `RequestInterpreter._normalize_mrt_data`. -/
def normalize_mrt_data (D0 : List (String × PyVal)) : Except PyErr TableRequestL := do
  let D := if dictHas D0 "globalFilter" then D0
    else dictSet D0 "globalFilter" (PyVal.str "")
  let D := if dictHas D "globalFilterFn" then
      dictSet D "globalfilterFns" (PyVal.str "fuzzy")
    else if !(dictHas D "globalfilterFns") then
      dictSet D "globalfilterFns" (PyVal.str "contains")
    else D
  let D ← match dictGet D "columnFilters" with
    | some (PyVal.list items) => do
      let itemDicts ← items.mapM (fun it =>
        match it with
        | PyVal.dict fields => Except.ok fields
        | _ => Except.error (PyErr.attributeError))
      let valid_filters := itemDicts.filter
        (fun fields => is_valid_filter_value (fields.lookup "value"))
      Except.ok (dictSet D "columnFilters" (PyVal.list (valid_filters.map PyVal.dict)))
    | some _ => Except.error PyErr.typeError
    | Option.none => Except.ok D
  let D ← match dictGet D "columnFilterFns" with
    | some (PyVal.dict fns) =>
      Except.ok (dictSet D "columnFilterFns" (PyVal.dict (fns.map (fun kv =>
        if pyEqStrLit kv.2 "equals2" then (kv.1, PyVal.str "equals") else kv))))
    | some _ => Except.error PyErr.attributeError
    | Option.none => Except.ok D
  let D := dictSetdefault D "columnFilterFns" (PyVal.dict [])
  let D := dictSetdefault D "sorting" (PyVal.list [])
  let D := dictSetdefault D "pagination" (PyVal.dict [])
  toTableRequest D

/-! ## C6 theorems -/

/-- The join paths attached to a query. -/
def joinPathsOf : Query → List String
  | .base _ => []
  | .whereQ q _ => joinPathsOf q
  | .join q _ jp => jp :: joinPathsOf q
  | .orderBy q _ _ => joinPathsOf q
  | .offsetQ q _ => joinPathsOf q
  | .limitQ q _ => joinPathsOf q
  | .countOver q => joinPathsOf q

theorem resolveLoop_mono (G : QGraph) :
    ∀ (parts : List String) (current : String) (jpp : List String)
      (acc : List JoinNeed) (st : ResolverState)
      (st' : ResolverState) (res : Except PyErr (String × List String × List JoinNeed)),
      resolveLoop G parts current jpp acc st = (st', res) →
      ∀ jp a, st.joins.lookup jp = some a → st'.joins.lookup jp = some a := by
  intro parts
  induction parts with
  | nil =>
    intro current jpp acc st st' res h jp a hjp
    simp only [resolveLoop] at h
    cases h
    exact hjp
  | cons part rest ih =>
    intro current jpp acc st st' res h jp a hjp
    simp only [resolveLoop] at h
    split at h
    · cases h; exact hjp
    · split at h
      · cases h; exact hjp
      · split at h
        · exact ih _ _ _ _ _ _ h jp a hjp
        · rename_i hnone
          refine ih _ _ _ _ _ _ h jp a ?_
          have hne : (jp == String.intercalate "." (jpp ++ [part])) = false := by
            rw [beq_eq_false_iff_ne]
            intro hEq
            rw [hEq] at hjp
            rw [hjp] at hnone
            exact Option.noConfusion hnone
          simp only [List.lookup, hne]
          exact hjp

theorem resolveLoop_acc_fresh (G : QGraph) :
    ∀ (parts : List String) (current : String) (jpp : List String)
      (acc : List JoinNeed) (st : ResolverState)
      (st' : ResolverState) (current' : String) (jpp' : List String)
      (acc' : List JoinNeed),
      resolveLoop G parts current jpp acc st = (st', .ok (current', jpp', acc')) →
      ∀ j ∈ acc', j ∈ acc ∨
        (st.joins.lookup j.joinPath = Option.none ∧
         st'.joins.lookup j.joinPath = some j.aliasIdx) := by
  intro parts
  induction parts with
  | nil =>
    intro current jpp acc st st' current' jpp' acc' h j hj
    simp only [resolveLoop] at h
    cases h
    exact Or.inl hj
  | cons part rest ih =>
    intro current jpp acc st st' current' jpp' acc' h j hj
    simp only [resolveLoop] at h
    split at h
    · cases h
    · split at h
      · cases h
      · split at h
        · exact ih _ _ _ _ _ _ _ _ h j hj
        · rename_i hlk
          rcases ih _ _ _ _ _ _ _ _ h j hj with hin | ⟨hnone, hsome⟩
          · rcases List.mem_append.mp hin with hin0 | hin1
            · exact Or.inl hin0
            · right
              have hje : j = ⟨ColRef.model current part, st.counter,
                  String.intercalate "." (jpp ++ [part])⟩ := by simpa using hin1
              subst hje
              constructor
              · simpa using hlk
              · refine resolveLoop_mono G rest _ _ _ _ _ _ h _ _ ?_
                simp [List.lookup]
          · right
            refine ⟨?_, hsome⟩
            simp only [List.lookup] at hnone
            split at hnone
            · cases hnone
            · exact hnone

theorem resolve_nested_path_mono (G : QGraph) (m : String) (st : ResolverState)
    (path : String) (st' : ResolverState) (c : ColRef) (al : List JoinNeed)
    (h : resolve_nested_path G m st path = (st', .ok (c, al))) :
    (∀ jp a, st.joins.lookup jp = some a → st'.joins.lookup jp = some a) ∧
    (∀ j ∈ al, st.joins.lookup j.joinPath = Option.none ∧
      st'.joins.lookup j.joinPath = some j.aliasIdx) := by
  unfold resolve_nested_path at h
  split at h
  · split at h
    · simp only [Prod.mk.injEq, Except.ok.injEq] at h
      obtain ⟨rfl, -, rfl⟩ := h
      constructor
      · intro jp a hjp; exact hjp
      · intro j hj
        simp at hj
    · simp at h
  · cases hloop : resolveLoop G (pySplit '.' path).dropLast m [] [] st with
    | mk stl res =>
      rw [hloop] at h
      cases res with
      | error e => simp at h
      | ok triple =>
        obtain ⟨current, jpp, acc⟩ := triple
        simp only at h
        split at h
        · simp at h
        · simp only [Prod.mk.injEq, Except.ok.injEq] at h
          obtain ⟨rfl, -, rfl⟩ := h
          constructor
          · exact fun jp a hjp => resolveLoop_mono G _ _ _ _ _ _ _ hloop jp a hjp
          · intro j hj
            rcases resolveLoop_acc_fresh G _ _ _ _ _ _ _ _ _ hloop j hj with hin | hok
            · simp at hin
            · exact hok

theorem attachJoins_nodup :
    ∀ (al : List JoinNeed) (applied : List String) (q : Query),
      (joinPathsOf q).Nodup → (∀ jp ∈ joinPathsOf q, jp ∈ applied) →
      (joinPathsOf (attachJoins applied q al).2).Nodup ∧
      (∀ jp ∈ joinPathsOf (attachJoins applied q al).2,
        jp ∈ (attachJoins applied q al).1) := by
  intro al
  induction al with
  | nil =>
    intro applied q hnd hsub
    exact ⟨hnd, hsub⟩
  | cons j rest ih =>
    intro applied q hnd hsub
    by_cases hc : applied.contains j.joinPath = true
    · simp only [attachJoins, hc, if_pos]
      exact ih applied q hnd hsub
    · simp only [attachJoins, hc, Bool.false_eq_true, if_false]
      refine ih (j.joinPath :: applied) (Query.join q j.aliasIdx j.joinPath) ?_ ?_
      · simp only [joinPathsOf, List.nodup_cons]
        refine ⟨fun hmem => hc (List.elem_eq_true_of_mem (hsub _ hmem)), hnd⟩
      · intro jp hjp
        simp only [joinPathsOf, List.mem_cons] at hjp
        rcases hjp with rfl | hjp
        · exact List.mem_cons_self _ _
        · exact List.mem_cons_of_mem _ (hsub _ hjp)

/-- C6 (confirmed): within one compilation, the join cache is monotone
(an alias, once assigned to a join path, is never replaced — so a second
resolution of a shared relation prefix sees the identical alias); a
second resolution registers `aliases_needed` entries only for join paths
absent from the cache (so a shared prefix contributes no new join); and
the join-attachment loop of the query builder, whose `applied_joins`
bookkeeping covers the joins already on the query, never attaches the
same join path twice. -/
theorem path_resolver_join_dedup (G : QGraph) (m : String)
    (st0 st1 st2 : ResolverState) (p1 p2 : String) (c1 c2 : ColRef)
    (al1 al2 : List JoinNeed)
    (h1 : resolve_nested_path G m st0 p1 = (st1, .ok (c1, al1)))
    (h2 : resolve_nested_path G m st1 p2 = (st2, .ok (c2, al2))) :
    (∀ jp a, st1.joins.lookup jp = some a → st2.joins.lookup jp = some a) ∧
    (∀ j ∈ al2, st1.joins.lookup j.joinPath = Option.none) ∧
    (∀ j ∈ al1, st2.joins.lookup j.joinPath = some j.aliasIdx) ∧
    (∀ (applied : List String) (q : Query),
      (joinPathsOf q).Nodup → (∀ jp ∈ joinPathsOf q, jp ∈ applied) →
      (joinPathsOf (attachJoins applied q al2).2).Nodup) := by
  obtain ⟨hmono1, hfresh1⟩ := resolve_nested_path_mono G m st0 p1 st1 c1 al1 h1
  obtain ⟨hmono2, hfresh2⟩ := resolve_nested_path_mono G m st1 p2 st2 c2 al2 h2
  refine ⟨hmono2, ?_, ?_, ?_⟩
  · intro j hj
    exact (hfresh2 j hj).1
  · intro j hj
    exact hmono2 _ _ (hfresh1 j hj).2
  · intro applied q hnd hsub
    exact (attachJoins_nodup al2 applied q hnd hsub).1

/-- A small demonstration schema shared by the witnesses: `Order` has
text/number/date/boolean columns, a many-to-one `customer` relation and
a one-to-many `items` relation whose target `Item` refers back to
`Order`. -/
def Gdemo : QGraph where
  attrs := fun m =>
    if m = "Order" then
      [("id", "number"), ("name", "text"), ("amount", "number"),
       ("created_at", "date"), ("active", "boolean")]
    else if m = "Customer" then [("name", "text"), ("city", "text")]
    else if m = "Item" then [("title", "text")]
    else []
  rels := fun m =>
    if m = "Order" then
      [("customer", ⟨"Customer", [("customer_id", "id")]⟩),
       ("items", ⟨"Item", [("id", "order_id")]⟩)]
    else if m = "Item" then [("order", ⟨"Order", [("order_id", "id")]⟩)]
    else []

/-- Witness for `path_resolver_join_dedup`. -/
theorem path_resolver_join_dedup_witness :
    resolve_nested_path Gdemo "Order" ⟨[], 0⟩ "customer.name" =
      (⟨[("customer", 0)], 1⟩,
       .ok (ColRef.aliased 0 "name",
            [⟨ColRef.model "Order" "customer", 0, "customer"⟩])) ∧
    resolve_nested_path Gdemo "Order" ⟨[("customer", 0)], 1⟩ "customer.city" =
      (⟨[("customer", 0)], 1⟩, .ok (ColRef.aliased 0 "city", [])) ∧
    (⟨[("customer", 0)], 1⟩ : ResolverState).joins.lookup "customer" = some 0 := by
  have h1 : resolve_nested_path Gdemo "Order" ⟨[], 0⟩ "customer.name" =
      (⟨[("customer", 0)], 1⟩,
       .ok (ColRef.aliased 0 "name",
            [⟨ColRef.model "Order" "customer", 0, "customer"⟩])) := rfl
  have h2 : resolve_nested_path Gdemo "Order" ⟨[("customer", 0)], 1⟩ "customer.city" =
      (⟨[("customer", 0)], 1⟩, .ok (ColRef.aliased 0 "city", [])) := rfl
  exact ⟨h1, h2,
    (path_resolver_join_dedup Gdemo "Order" _ _ _ _ _ _ _ _ _ h1 h2).1 "customer" 0 rfl⟩

/-! ## C1 theorems -/

/-- C1 (corrected, counterexample): a column filter whose application
fails with a *non-`ValueError`* exception aborts the whole compilation:
applying the list operator `in` to a string value raises
`AttributeError` inside `ListFilter.apply`, `_apply_filter` records it in
`invalid_paths` but then re-raises it (`raise e`), and
`apply_column_filter` never reaches the second filter. -/
theorem apply_filter_unexpected_error_aborts_cex :
    apply_column_filter Gdemo (fun _ => Option.none) "Order"
        [("name", "in"), ("amount", "equals")]
        (QueryBuilder_init "Order")
        [("name", PyVal.str "x"), ("amount", PyVal.int 3)] =
      ({ QueryBuilder_init "Order" with
          invalid_paths := ["name: unexpected error - AttributeError"] },
       some PyErr.attributeError) := rfl

/-- C1 (amended): for every single filter application, a `ValueError`
(the class used for all path-resolution failures) is appended to
`invalid_paths` and swallowed, so compilation continues with the next
filter; any other exception is appended to `invalid_paths` *and
re-raised*, aborting the compilation.  A successful application leaves
`invalid_paths` unchanged. -/
theorem apply_filter_error_handling (G : QGraph) (parse : String → Option Int)
    (selfModel : String) (st : BuilderState) (path filter_fn : String)
    (value : PyVal) :
    ((QueryBuilder_apply_filter G parse selfModel st path filter_fn value).2 =
        Option.none →
      (QueryBuilder_apply_filter G parse selfModel st path filter_fn
          value).1.invalid_paths = st.invalid_paths ∨
      ∃ m, (QueryBuilder_apply_filter G parse selfModel st path filter_fn
          value).1.invalid_paths = st.invalid_paths ++ [path ++ ": " ++ m]) ∧
    (∀ e, (QueryBuilder_apply_filter G parse selfModel st path filter_fn
          value).2 = some e →
      (∀ m, e ≠ PyErr.valueError m) ∧
      (QueryBuilder_apply_filter G parse selfModel st path filter_fn
          value).1.invalid_paths =
        st.invalid_paths ++ [path ++ ": unexpected error - " ++ pyErrMsg e]) := by
  unfold QueryBuilder_apply_filter
  have hexc : ∀ (st0 : BuilderState) (e0 : PyErr),
      ((QueryBuilder_apply_filter.handleFilterExc st0 path e0).2 = Option.none →
        (QueryBuilder_apply_filter.handleFilterExc st0 path e0).1.invalid_paths =
          st0.invalid_paths ∨
        ∃ m, (QueryBuilder_apply_filter.handleFilterExc st0 path e0).1.invalid_paths =
          st0.invalid_paths ++ [path ++ ": " ++ m]) ∧
      (∀ e, (QueryBuilder_apply_filter.handleFilterExc st0 path e0).2 = some e →
        (∀ m, e ≠ PyErr.valueError m) ∧
        (QueryBuilder_apply_filter.handleFilterExc st0 path e0).1.invalid_paths =
          st0.invalid_paths ++ [path ++ ": unexpected error - " ++ pyErrMsg e]) := by
    intro st0 e0
    unfold QueryBuilder_apply_filter.handleFilterExc
    cases e0 <;>
      first
      | exact ⟨fun _ => Or.inr ⟨_, rfl⟩, fun e he => Option.noConfusion he⟩
      | (refine ⟨fun h0 => Option.noConfusion h0, fun e he => ?_⟩
         have h2 : _ = e := Option.some.inj he
         subst h2
         exact ⟨fun m hm => absurd hm (by simp), rfl⟩)
  cases hA : analyze_path G selfModel path with
  | error e0 => exact ⟨fun h0 => ((hexc st e0).1 h0), fun e he => (hexc st e0).2 e he⟩
  | ok column_type =>
    cases hR : resolve_nested_path G selfModel st.resolver path with
    | mk rst r =>
      cases r with
      | error e0 =>
        exact ⟨fun h0 => (hexc _ e0).1 h0, fun e he => (hexc _ e0).2 e he⟩
      | ok pair =>
        obtain ⟨column, aliases_needed⟩ := pair
        simp only []
        cases hF : apply_filter_by_type G parse selfModel
            (attachJoins st.applied_joins st.query aliases_needed).2 column
            column_type filter_fn value with
        | error e0 =>
          exact ⟨fun h0 => (hexc _ e0).1 h0, fun e he => (hexc _ e0).2 e he⟩
        | ok q2 =>
          exact ⟨fun _ => Or.inl rfl, fun e he => by simp at he⟩

/-- Witness for `apply_filter_error_handling`. -/
theorem apply_filter_error_handling_witness :
    (QueryBuilder_apply_filter Gdemo (fun _ => Option.none) "Order"
        (QueryBuilder_init "Order") "name" "in" (PyVal.str "x")).2 =
      some PyErr.attributeError ∧
    (QueryBuilder_apply_filter Gdemo (fun _ => Option.none) "Order"
        (QueryBuilder_init "Order") "name" "in" (PyVal.str "x")).1.invalid_paths =
      (QueryBuilder_init "Order").invalid_paths ++
        ["name" ++ ": unexpected error - " ++ pyErrMsg PyErr.attributeError] := by
  refine ⟨rfl, ?_⟩
  exact ((apply_filter_error_handling Gdemo (fun _ => Option.none) "Order"
    (QueryBuilder_init "Order") "name" "in" (PyVal.str "x")).2
    PyErr.attributeError rfl).2


/-! ## Pagination placement (`apply_table_request`) -/

/-- Whether a query tree contains an `offset` or `limit` clause. -/
def hasPagination : Query → Bool
  | .base _ => false
  | .whereQ q _ => hasPagination q
  | .join q _ _ => hasPagination q
  | .orderBy q _ _ => hasPagination q
  | .offsetQ _ _ => true
  | .limitQ _ _ => true
  | .countOver q => hasPagination q

theorem attachJoins_pag (js : List JoinNeed) :
    ∀ (applied : List String) (q : Query),
      hasPagination (attachJoins applied q js).2 = hasPagination q := by
  induction js with
  | nil => intro applied q; rfl
  | cons j rest ih =>
    intro applied q
    unfold attachJoins
    by_cases hc : applied.contains j.joinPath
    · rw [if_pos hc]; exact ih _ _
    · rw [if_neg hc]; exact ih _ _

theorem relDispatch_pag (G : QGraph) (selfModel : String) (column : ColRef)
    (query : Query) (filter_fn : String) (q2 : Query)
    (vX : Except PyErr (List RelationFilterValue)) (target : String)
    (h : (vX >>= fun values =>
      if filter_fn = "hasAny" then
        apply_has_any G selfModel target column values >>= fun condition =>
          pure (Query.whereQ query condition)
      else if filter_fn = "hasChild" then
        pure (Query.whereQ query (QPred.anyEmptyP column))
      else if filter_fn = "hasNotChild" then
        pure (Query.whereQ query (QPred.notP (QPred.anyEmptyP column)))
      else Except.error (PyErr.valueError ("unsupported operator: " ++ filter_fn)))
      = Except.ok q2) :
    hasPagination q2 = hasPagination query := by
  cases vX with
  | error e =>
    replace h : (Except.error e : Except PyErr Query) = Except.ok q2 := h
    exact Except.noConfusion h
  | ok values =>
    replace h : (if filter_fn = "hasAny" then
        apply_has_any G selfModel target column values >>= fun condition =>
          pure (Query.whereQ query condition)
      else if filter_fn = "hasChild" then
        pure (Query.whereQ query (QPred.anyEmptyP column))
      else if filter_fn = "hasNotChild" then
        pure (Query.whereQ query (QPred.notP (QPred.anyEmptyP column)))
      else Except.error (PyErr.valueError ("unsupported operator: " ++ filter_fn)))
        = Except.ok q2 := h
    split at h
    · cases hH : apply_has_any G selfModel target column values with
      | error e =>
        rw [hH] at h
        replace h : (Except.error e : Except PyErr Query) = Except.ok q2 := h
        exact Except.noConfusion h
      | ok condition =>
        rw [hH] at h
        injection h with h2
        subst h2
        rfl
    · split at h
      · injection h with h2; subst h2; rfl
      · split at h
        · injection h with h2; subst h2; rfl
        · exact Except.noConfusion h

theorem apply_filter_by_type_pag (G : QGraph) (parse : String → Option Int)
    (selfModel : String) (query : Query) (column : ColRef)
    (column_type filter_fn : String) (value : PyVal) (q2 : Query)
    (h : apply_filter_by_type G parse selfModel query column column_type
        filter_fn value = Except.ok q2) :
    hasPagination q2 = hasPagination query := by
  unfold apply_filter_by_type at h
  split at h
  · injection h with h2; subst h2; rfl
  · split at h
    · split at h
      all_goals
        rename_i mn an
        simp only [] at h
        cases hL : List.lookup an (G.rels selfModel) with
        | none =>
          rw [hL] at h
          simp only [] at h
          exact Except.noConfusion h
        | some rel =>
          rw [hL] at h
          simp only [] at h
          exact relDispatch_pag G selfModel _ query filter_fn q2 _ rel.target h
    · split at h
      · injection h with h2; subst h2; rfl
      · split at h
        · injection h with h2; subst h2; rfl
        · split at h
          · cases hB : BooleanFilter_apply column filter_fn value with
            | error e =>
              rw [hB] at h
              replace h : (Except.error e : Except PyErr Query) = Except.ok q2 := h
              exact Except.noConfusion h
            | ok p =>
              rw [hB] at h
              injection h with h2
              subst h2
              rfl
          · split at h
            · cases hL : ListFilter_apply column filter_fn value with
              | error e =>
                rw [hL] at h
                replace h : (Except.error e : Except PyErr Query) = Except.ok q2 := h
                exact Except.noConfusion h
              | ok p =>
                rw [hL] at h
                injection h with h2
                subst h2
                rfl
            · split at h
              · injection h with h2; subst h2; rfl
              · injection h with h2; subst h2; rfl

theorem QueryBuilder_apply_filter_pag (G : QGraph) (parse : String → Option Int)
    (selfModel : String) (st : BuilderState) (path filter_fn : String)
    (value : PyVal) :
    hasPagination (QueryBuilder_apply_filter G parse selfModel st path
      filter_fn value).1.query = hasPagination st.query := by
  unfold QueryBuilder_apply_filter
  cases hA : analyze_path G selfModel path with
  | error e => cases e <;> rfl
  | ok column_type =>
    cases hR : resolve_nested_path G selfModel st.resolver path with
    | mk rst r =>
      cases r with
      | error e => cases e <;> rfl
      | ok pair =>
        obtain ⟨column, aliases_needed⟩ := pair
        simp only []
        cases hF : apply_filter_by_type G parse selfModel
            (attachJoins st.applied_joins st.query aliases_needed).2 column
            column_type filter_fn value with
        | error e => cases e <;> exact attachJoins_pag _ _ _
        | ok q2 =>
          rw [apply_filter_by_type_pag G parse selfModel _ column column_type
            filter_fn value q2 hF]
          exact attachJoins_pag _ _ _

theorem apply_column_filter_pag (G : QGraph) (parse : String → Option Int)
    (selfModel : String) (fns : List (String × String)) :
    ∀ (filters : List (String × PyVal)) (st : BuilderState),
      hasPagination (apply_column_filter G parse selfModel fns st filters).1.query
        = hasPagination st.query := by
  intro filters
  induction filters with
  | nil => intro st; rfl
  | cons f rest ih =>
    intro st
    obtain ⟨id, value⟩ := f
    unfold apply_column_filter
    cases hap : QueryBuilder_apply_filter G parse selfModel st id
        (match fns.lookup id with | some f => f | Option.none => "fuzzy") value with
    | mk st1 r =>
      have hp := QueryBuilder_apply_filter_pag G parse selfModel st id
        (match fns.lookup id with | some f => f | Option.none => "fuzzy") value
      rw [hap] at hp
      cases r with
      | none =>
        simp only []
        rw [hap]
        simp only []
        rw [ih st1]
        exact hp
      | some e =>
        simp only []
        rw [hap]
        simp only []
        exact hp

theorem apply_global_filter_pag (G : QGraph) (selfModel : String)
    (st : BuilderState) (gf : String) :
    hasPagination (QueryBuilder_apply_global_filter G selfModel st gf).query
      = hasPagination st.query := by
  unfold QueryBuilder_apply_global_filter
  split
  · rfl
  · simp only []
    split
    · rfl
    · rfl

theorem apply_sorting_one_pag (G : QGraph) (selfModel : String)
    (st : BuilderState) (cp : String) (desc : Bool) :
    hasPagination (QueryBuilder_apply_sorting_one G selfModel st cp desc).query
      = hasPagination st.query := by
  unfold QueryBuilder_apply_sorting_one
  cases hA : analyze_path G selfModel cp with
  | error e => rfl
  | ok ct =>
    simp only []
    by_cases h1 : ct = "relation"
    · rw [if_pos h1]
    · rw [if_neg h1]
      cases hR : resolve_nested_path G selfModel st.resolver cp with
      | mk rst r =>
        cases r with
        | error e => rfl
        | ok pair =>
          obtain ⟨column, aliases_needed⟩ := pair
          simp only []
          exact attachJoins_pag _ _ _

theorem apply_sorting_pag (G : QGraph) (selfModel : String) :
    ∀ (sorting : List (String × Bool)) (st : BuilderState),
      hasPagination (apply_sorting G selfModel st sorting).query
        = hasPagination st.query := by
  intro sorting
  induction sorting with
  | nil => intro st; rfl
  | cons s rest ih =>
    intro st
    obtain ⟨id, desc⟩ := s
    unfold apply_sorting
    rw [ih]
    exact apply_sorting_one_pag G selfModel st id desc

/-- C4: for every table request that compiles without a propagating
exception, starting from a query with no pagination clauses, the
row-count query is `count(*)` over exactly the filtered-and-sorted
query (which still contains no offset/limit), and the final data query
is that same query with `offset = pageIndex * pageSize` and
`limit = pageSize` applied last, on top of everything else. -/
theorem table_request_pagination_last (G : QGraph) (parse : String → Option Int)
    (selfModel : String) (request : TableRequestL) (st st' : BuilderState)
    (h : apply_table_request G parse selfModel request st true = (st', Option.none))
    (h0 : hasPagination st.query = false) :
    ∃ q3, st'.row_count_query = some (Query.countOver q3) ∧
      hasPagination q3 = false ∧
      st'.query = Query.limitQ (Query.offsetQ q3
        (request.pagination.1 * request.pagination.2)) request.pagination.2 := by
  unfold apply_table_request at h
  simp only [] at h
  cases hC : apply_column_filter G parse selfModel request.columnFilterFns
      (if request.globalFilter ≠ "" then
        QueryBuilder_apply_global_filter G selfModel st request.globalFilter
      else st) request.columnFilters with
  | mk st2 r =>
    rw [hC] at h
    cases r with
    | some e => simp only [Prod.mk.injEq] at h; exact absurd h.2 (by simp)
    | none =>
      simp only [Prod.mk.injEq, if_pos rfl] at h
      obtain ⟨h1, -⟩ := h
      subst h1
      refine ⟨(apply_sorting G selfModel st2 request.sorting).query, rfl, ?_, rfl⟩
      rw [apply_sorting_pag]
      have hp := apply_column_filter_pag G parse selfModel request.columnFilterFns
        request.columnFilters
        (if request.globalFilter ≠ "" then
          QueryBuilder_apply_global_filter G selfModel st request.globalFilter
        else st)
      rw [hC] at hp
      rw [hp]
      split
      · rw [apply_global_filter_pag]; exact h0
      · exact h0

/-- Witness for `table_request_pagination_last`: an empty request at
page index 2 with page size 5 on the demo model. -/
theorem table_request_pagination_last_witness :
    hasPagination (QueryBuilder_init "Order").query = false ∧
    ∃ q3, (apply_table_request Gdemo (fun _ => Option.none) "Order"
        ⟨[], [], ((2 : Int), (5 : Int)), [], "", "contains"⟩
        (QueryBuilder_init "Order") true).1.row_count_query
          = some (Query.countOver q3) ∧
      hasPagination q3 = false ∧
      (apply_table_request Gdemo (fun _ => Option.none) "Order"
        ⟨[], [], ((2 : Int), (5 : Int)), [], "", "contains"⟩
        (QueryBuilder_init "Order") true).1.query
          = Query.limitQ (Query.offsetQ q3 ((2 : Int) * (5 : Int))) (5 : Int) :=
  ⟨rfl, table_request_pagination_last Gdemo (fun _ => Option.none) "Order"
    ⟨[], [], ((2 : Int), (5 : Int)), [], "", "contains"⟩
    (QueryBuilder_init "Order") _ rfl rfl⟩



/-! ## Self-reference handling in `RelationFilter._apply_has_any` -/

theorem bind_ok_eq {α β : Type} {x : Except PyErr α} {a : α}
    (h : x = Except.ok a) (f : α → Except PyErr β) :
    (x >>= f) = f a := by
  rw [h]
  rfl

theorem normalizeRelationValues_id :
    ∀ (values : List RelationFilterValue), (∀ v ∈ values, v.column ≠ "") →
      normalizeRelationValues values = Except.ok values := by
  intro values
  induction values with
  | nil => intro h; rfl
  | cons x xs ih =>
    intro h
    have hx : x.column ≠ "" := h x (List.mem_cons_self x xs)
    have hxs := ih (fun v hv => h v (List.mem_cons_of_mem x hv))
    simp only [normalizeRelationValues] at hxs ⊢
    rw [List.mapM_cons]
    rw [if_neg hx, hxs]
    rfl

theorem mapM_anyP_ok (G : QGraph) (selfModel related_model : String)
    (column : ColRef) :
    ∀ (xs : List RelationFilterValue) (ys : List QPred),
      xs.mapM (fun v => apply_operator_conditions G selfModel related_model
          [v] false) = Except.ok ys →
      (xs.mapM (fun v => do
          let single_condition ← apply_operator_conditions G selfModel
            related_model [v] false
          pure (QPred.anyP column single_condition)) :
        Except PyErr (List QPred)) = Except.ok (ys.map (QPred.anyP column)) := by
  intro xs
  induction xs with
  | nil =>
    intro ys h
    replace h : (Except.ok [] : Except PyErr (List QPred)) = Except.ok ys := h
    injection h with h2
    subst h2
    rfl
  | cons x xs ih =>
    intro ys h
    rw [List.mapM_cons] at h
    cases hx : apply_operator_conditions G selfModel related_model [x] false with
    | error e =>
      rw [hx] at h
      replace h : (Except.error e : Except PyErr (List QPred)) = Except.ok ys := h
      exact Except.noConfusion h
    | ok c =>
      rw [hx] at h
      cases hrest : List.mapM (fun v => apply_operator_conditions G selfModel
          related_model [v] false) xs with
      | error e =>
        rw [hrest] at h
        replace h : (Except.error e : Except PyErr (List QPred)) = Except.ok ys := h
        exact Except.noConfusion h
      | ok cs0 =>
        rw [hrest] at h
        replace h : (Except.ok (c :: cs0) : Except PyErr (List QPred))
          = Except.ok ys := h
        injection h with h2
        subst h2
        rw [List.mapM_cons]
        rw [hx, ih cs0 hrest]
        rfl

/-- C7: for every `hasAny` relation filter over valid sub-conditions
(non-empty column paths) whose per-value conditions compile to `cs`:
when the sub-condition paths loop back to the outer model
(self-reference), the compiled condition is the AND over `cs` of one
existential (`column.any`) test per sub-condition; for a
non-self-referential relation it is a single existential whose body
conjoins the join conditions (when present) with the conjunction of all
sub-conditions. -/
theorem hasAny_self_reference_split (G : QGraph) (selfModel related_model : String)
    (column : ColRef) (values : List RelationFilterValue) (cs : List QPred)
    (hne : ∀ v ∈ values, v.column ≠ "")
    (hmap : values.mapM
        (fun v => apply_operator_conditions G selfModel related_model [v] false)
      = Except.ok cs) :
    (is_self_reference_relation G selfModel related_model values = true →
      cs ≠ [] →
      apply_has_any G selfModel related_model column values =
        Except.ok (andAll (cs.map (QPred.anyP column)))) ∧
    (is_self_reference_relation G selfModel related_model values = false →
      ∀ jc oc, apply_join_conditions G related_model values = Except.ok jc →
        apply_operator_conditions G selfModel related_model values false
          = Except.ok oc →
        apply_has_any G selfModel related_model column values =
          Except.ok (QPred.anyP column
            (match jc with
             | Option.none => oc
             | some j => QPred.andP j oc))) := by
  have hnorm := normalizeRelationValues_id values hne
  constructor
  · intro hself hcs
    unfold apply_has_any
    rw [bind_ok_eq hnorm]
    rw [hself, if_pos rfl]
    rw [bind_ok_eq (mapM_anyP_ok G selfModel related_model column values cs hmap)]
    cases cs with
    | nil => exact absurd rfl hcs
    | cons c cs0 =>
      cases cs0 with
      | nil =>
        rw [if_neg (by simp only [List.map_cons, List.map_nil, List.length_cons,
          List.length_nil]; omega)]
        rfl
      | cons c2 cs1 =>
        rw [if_pos (by simp only [List.map_cons, List.length_cons]; omega)]
        rfl
  · intro hself jc oc hjc hoc
    unfold apply_has_any
    rw [bind_ok_eq hnorm]
    rw [hself, if_neg (by simp)]
    rw [bind_ok_eq hjc]
    rw [bind_ok_eq hoc]
    cases jc with
    | none => rfl
    | some j => rfl

/-- Witness for `hasAny_self_reference_split`: two sub-conditions on
`Item` whose paths walk back to `Order` compile to two separate
`.any` tests joined by AND. -/
theorem hasAny_self_reference_split_witness :
    is_self_reference_relation Gdemo "Order" "Item"
      [⟨"order.name", "contains", PyVal.str "X"⟩,
       ⟨"order.amount", "greaterThan", PyVal.int 1⟩] = true ∧
    apply_has_any Gdemo "Order" "Item" (ColRef.model "Order" "items")
      [⟨"order.name", "contains", PyVal.str "X"⟩,
       ⟨"order.amount", "greaterThan", PyVal.int 1⟩] =
      Except.ok (QPred.andP
        (QPred.anyP (ColRef.model "Order" "items")
          (QPred.hasRelP (ColRef.model "Item" "order")
            (QPred.likeP (ColRef.model "Order" "name") "%X%")))
        (QPred.anyP (ColRef.model "Order" "items")
          (QPred.hasRelP (ColRef.model "Item" "order")
            (QPred.gtP (ColRef.model "Order" "amount")
              (Scalar.py (PyVal.int 1)))))) :=
  ⟨rfl,
   (hasAny_self_reference_split Gdemo "Order" "Item" (ColRef.model "Order" "items")
      [⟨"order.name", "contains", PyVal.str "X"⟩,
       ⟨"order.amount", "greaterThan", PyVal.int 1⟩]
      [QPred.hasRelP (ColRef.model "Item" "order")
         (QPred.likeP (ColRef.model "Order" "name") "%X%"),
       QPred.hasRelP (ColRef.model "Item" "order")
         (QPred.gtP (ColRef.model "Order" "amount") (Scalar.py (PyVal.int 1)))]
      (by decide) rfl).1 rfl (by simp)⟩



def mkRawFilter (p : String × Option PyVal) : List (String × PyVal) :=
  ("id", PyVal.str p.1) ::
    (match p.2 with | some v => [("value", v)] | Option.none => [])

theorem mkRawFilter_lookup_value (p : String × Option PyVal) :
    (mkRawFilter p).lookup "value" = p.2 := by
  obtain ⟨i, v⟩ := p
  cases v <;> rfl

theorem ok_bind {α β : Type} (a : α) (f : α → Except PyErr β) :
    (Except.ok a >>= f : Except PyErr β) = f a := rfl

theorem mapM_dict_ok2 (filters : List (String × Option PyVal)) :
    List.mapM (fun it => match it with
      | PyVal.dict fields => Except.ok fields
      | _ => Except.error PyErr.attributeError)
      (List.map (fun p => PyVal.dict (mkRawFilter p)) filters)
    = Except.ok (List.map mkRawFilter filters) := by
  induction filters with
  | nil => rfl
  | cons d ds ih =>
    rw [List.map_cons, List.mapM_cons, ih]
    rfl

theorem mapM_fns_ok (fns : List (String × String))
    (hfns : ∀ p ∈ fns, p.2 = "equals2" ∨ ALL_FILTER_FNS.contains p.2 = true) :
    List.mapM (fun kv =>
      match kv.2 with
      | PyVal.str s =>
        if ALL_FILTER_FNS.contains s = true then Except.ok (kv.1, s)
        else Except.error (PyErr.valueError ("validation: operator " ++ s))
      | _ => Except.error (PyErr.valueError "validation: operator type"))
      (List.map
        (fun kv => if pyEqStrLit kv.2 "equals2" = true then (kv.1, PyVal.str "equals") else kv)
        (List.map (fun p => (p.1, PyVal.str p.2)) fns))
    = Except.ok (List.map
        (fun p => (p.1, if (p.2 == "equals2") = true then "equals" else p.2)) fns) := by
  induction fns with
  | nil => rfl
  | cons p ps ih =>
    obtain ⟨k, s⟩ := p
    have hp := hfns (k, s) (List.mem_cons_self _ ps)
    have hps := fun q hq => hfns q (List.mem_cons_of_mem (k, s) hq)
    rw [List.map_cons, List.map_cons, List.map_cons, List.mapM_cons]
    by_cases hcase : s = "equals2"
    · subst hcase
      rw [ih hps]
      rfl
    · have hc : ALL_FILTER_FNS.contains s = true := hp.resolve_left hcase
      have h2 : pyEqStrLit (PyVal.str s) "equals2" = false := by
        simp [pyEqStrLit, hcase]
      have hbeq : (s == "equals2") = false := by
        simp [hcase]
      simp only [h2, hbeq, Bool.false_eq_true, if_false]
      rw [ih hps]
      simp only [hc]
      rfl

theorem mapM_filters_ok (filters : List (String × Option PyVal)) :
    List.mapM (fun it =>
      match it with
      | PyVal.dict fields =>
        (match fields.lookup "id" with
         | some (PyVal.str id) =>
           Except.ok (id, (fields.lookup "value").getD PyVal.none)
         | _ => Except.error (PyErr.valueError "validation: filter id"))
      | _ => Except.error (PyErr.valueError "validation: filter item"))
      (List.map PyVal.dict
        (List.filter (fun fields => is_valid_filter_value (List.lookup "value" fields))
          (List.map mkRawFilter filters)))
    = Except.ok ((filters.filter (fun p => is_valid_filter_value p.2)).map
        (fun p => (p.1, p.2.getD PyVal.none))) := by
  induction filters with
  | nil => rfl
  | cons p ps ih =>
    obtain ⟨k, vo⟩ := p
    cases vo with
    | none =>
      rw [List.map_cons, List.filter_cons, List.filter_cons]
      simp only [mkRawFilter]
      exact ih
    | some v =>
      rw [List.map_cons, List.filter_cons, List.filter_cons]
      cases hv : is_valid_filter_value (some v) with
      | false =>
        simp only [mkRawFilter_lookup_value, hv, Bool.false_eq_true, if_false]
        exact ih
      | true =>
        simp only [mkRawFilter_lookup_value, hv, if_true]
        rw [List.map_cons, List.mapM_cons, ih]
        rfl

/-- C9: request normalization, for a raw inbound table request carrying
column filters (each a dict with a string `id` and optional `value`),
string-valued `columnFilterFns`, and optionally the legacy
`globalFilterFn` key: it drops exactly the column filters whose value is
missing, `None`, an empty or whitespace-only string, or a list with no
non-empty entry; rewrites the legacy operator name `equals2` to
`equals`; forces the global operator to `fuzzy` when the legacy key is
present and defaults it to `contains` otherwise; and defaults
`globalFilter` to the empty string, sorting to `[]`, and pagination to
`pageIndex = 0`, `pageSize = 10`. -/
theorem normalize_request_spec (filters : List (String × Option PyVal))
    (fns : List (String × String)) (legacy : Bool)
    (hfns : ∀ p ∈ fns, p.2 = "equals2" ∨ ALL_FILTER_FNS.contains p.2 = true) :
    normalize_mrt_data
      (("columnFilters",
          PyVal.list (filters.map (fun p => PyVal.dict (mkRawFilter p)))) ::
       ("columnFilterFns",
          PyVal.dict (fns.map (fun p => (p.1, PyVal.str p.2)))) ::
       (if legacy then [("globalFilterFn", PyVal.str "x")] else [])) =
    Except.ok
      { columnFilterFns :=
          fns.map (fun p => (p.1, if p.2 == "equals2" then "equals" else p.2)),
        columnFilters :=
          (filters.filter (fun p => is_valid_filter_value p.2)).map
            (fun p => (p.1, p.2.getD PyVal.none)),
        pagination := ((0 : Int), (10 : Int)),
        sorting := [],
        globalFilter := "",
        globalfilterFns := if legacy then "fuzzy" else "contains" } := by
  cases legacy
  · unfold normalize_mrt_data
    simp only [dictHas, dictGet, dictSet, dictSetdefault, List.lookup,
      List.any_cons, List.any_nil, List.map_cons, List.map_nil, if_true,
      List.append_nil, List.cons_append, List.nil_append, Bool.or_false,
      Bool.or_true, Option.isSome_some, Option.isSome_none, beq_self_eq_true,
      String.reduceBEq, Bool.false_or, Bool.true_or, if_false,
      Bool.false_eq_true, ite_false, ite_true, Bool.not_false, Bool.not_true,
      eq_self_iff_true, ok_bind]
    rw [bind_ok_eq (mapM_dict_ok2 filters)]
    unfold toTableRequest
    simp only [dictHas, dictGet, dictSet, dictSetdefault, List.lookup,
      List.any_cons, List.any_nil, List.map_cons, List.map_nil, if_true,
      List.append_nil, List.cons_append, List.nil_append, Bool.or_false,
      Bool.or_true, Option.isSome_some, Option.isSome_none, beq_self_eq_true,
      String.reduceBEq, Bool.false_or, Bool.true_or, if_false,
      Bool.false_eq_true, ite_false, ite_true, Bool.not_false, Bool.not_true,
      eq_self_iff_true, ok_bind]
    rw [bind_ok_eq (mapM_fns_ok fns hfns), bind_ok_eq (mapM_filters_ok filters)]
    rfl
  · unfold normalize_mrt_data
    simp only [dictHas, dictGet, dictSet, dictSetdefault, List.lookup,
      List.any_cons, List.any_nil, List.map_cons, List.map_nil, if_true,
      List.append_nil, List.cons_append, List.nil_append, Bool.or_false,
      Bool.or_true, Option.isSome_some, Option.isSome_none, beq_self_eq_true,
      String.reduceBEq, Bool.false_or, Bool.true_or, if_false,
      Bool.false_eq_true, ite_false, ite_true, Bool.not_false, Bool.not_true,
      eq_self_iff_true, ok_bind]
    rw [bind_ok_eq (mapM_dict_ok2 filters)]
    unfold toTableRequest
    simp only [dictHas, dictGet, dictSet, dictSetdefault, List.lookup,
      List.any_cons, List.any_nil, List.map_cons, List.map_nil, if_true,
      List.append_nil, List.cons_append, List.nil_append, Bool.or_false,
      Bool.or_true, Option.isSome_some, Option.isSome_none, beq_self_eq_true,
      String.reduceBEq, Bool.false_or, Bool.true_or, if_false,
      Bool.false_eq_true, ite_false, ite_true, Bool.not_false, Bool.not_true,
      eq_self_iff_true, ok_bind]
    rw [bind_ok_eq (mapM_fns_ok fns hfns), bind_ok_eq (mapM_filters_ok filters)]
    rfl


/-- Witness for `normalize_request_spec`: three filters (one kept, a
`None`-valued and a whitespace-valued one dropped), an `equals2`
operator rewritten, and the legacy global-filter key forcing `fuzzy`. -/
theorem normalize_request_spec_witness :
    normalize_mrt_data
      [("columnFilters", PyVal.list
          [PyVal.dict [("id", PyVal.str "name"), ("value", PyVal.str "abc")],
           PyVal.dict [("id", PyVal.str "age"), ("value", PyVal.none)],
           PyVal.dict [("id", PyVal.str "city"), ("value", PyVal.str "  ")]]),
       ("columnFilterFns", PyVal.dict
          [("name", PyVal.str "equals2"), ("age", PyVal.str "greaterThan")]),
       ("globalFilterFn", PyVal.str "x")] =
    Except.ok
      { columnFilterFns := [("name", "equals"), ("age", "greaterThan")],
        columnFilters := [("name", PyVal.str "abc")],
        pagination := ((0 : Int), (10 : Int)),
        sorting := [],
        globalFilter := "",
        globalfilterFns := "fuzzy" } :=
  normalize_request_spec
    [("name", some (PyVal.str "abc")), ("age", some PyVal.none),
     ("city", some (PyVal.str "  "))]
    [("name", "equals2"), ("age", "greaterThan")] true (by decide)

end FastApps
